import Mathlib

/-!
Verification of the insight-detection and reconciliation engine of the
industrial plant monitor (backend/app/services/dashboard.py `manage_insights`,
backend/app/events.py `FacilityEventBroadcaster`, and the SSE stream generator
in backend/app/api/dashboard.py `stream_facility_summary`).

Modelling conventions:
* Python floats are modelled as exact rationals (`ℚ`); the threshold constants
  0.9, 1.1, 0.75 become `9/10`, `11/10`, `3/4`.
* UUIDs are modelled as `Nat`; the all-zero sentinel UUID used by the SQL
  `COALESCE` key is modelled as `0`, so real asset ids are nonzero naturals.
* Timestamps (`now()`) are modelled as `Nat`.
* The numeric text formatting (`:.1f` / `:.0f`) of description strings is
  abbreviated by an exact rendering `fmt`; descriptions stay deterministic
  functions of the same inputs, which is all the analysed properties use.
* The SQL queries loading current/trend readings and operational ranges are
  modelled by taking their result sets (`assetsData`, `ranges`) as inputs;
  the analysed code paths start after those loads.
-/

namespace PlantMonitor

/-- The four sensor metrics evaluated by `manage_insights`. -/
inductive Metric
  | temperature
  | pressure
  | power_consumption
  | production_output
deriving DecidableEq

/-- Threshold types of operational insights (services/dashboard.py). -/
inductive ThresholdType
  | out_of_range
  | approaching_limit
  | elevated
  | rising_trend
  | declining_production
  | low_production
deriving DecidableEq

/-- Severity levels used by the detected issues. -/
inductive Severity
  | high
  | medium
  | low
deriving DecidableEq

/-- One row of the `current_readings` / `trend_readings` join in
`manage_insights`: latest value (plus unit) in the 60-minute window and the
optional 60-90-minute trend average for one metric of one asset. -/
structure MetricReading where
  current_value : ℚ
  unit : String
  trend_value : Option ℚ
deriving DecidableEq

/-- One row of `asset_operational_ranges` for a metric of an asset. -/
structure MRange where
  min : ℚ
  max : ℚ
  unit : String
deriving DecidableEq

/-- Per-asset slice of `assets_data` built by the grouping loop in
`manage_insights`: asset id, asset name and the metric dictionary. -/
structure AssetData where
  asset_id : Nat
  asset_name : String
  metrics : List (Metric × MetricReading)
deriving DecidableEq

/-- Association-list lookup modelling Python dict access. -/
def lookupIn {α β : Type} [DecidableEq α] (k : α) : List (α × β) → Option β
  | [] => none
  | p :: rest => if p.1 = k then some p.2 else lookupIn k rest

/-- Deterministic rendering of a rational, standing in for Python's
`:.1f` / `:.0f` numeric formatting inside f-strings. -/
def fmt (q : ℚ) : String :=
  toString q.num ++ "/" ++ toString q.den

/-- A detected issue (transient Finding) as appended to `detected_issues`. -/
structure Finding where
  asset_id : Nat
  metric_name : Metric
  threshold_type : ThresholdType
  severity : Severity
  title : String
  description : String
deriving DecidableEq

/-- The `# Check temperature` block of `manage_insights`: sequential
if/elif/elif over the absolute bounds, then the independent trend check.
Returns the findings appended for this metric and whether the out-of-range
branch fired (its contribution to `any_out_of_range`). The block runs only
when both a current reading and a configured range are present. -/
def checkTemperature (aid : Nat) (aname : String) (reading : Option MetricReading)
    (rng : Option MRange) : List Finding × Bool :=
  match reading, rng with
  | some temp, some tr =>
      let current := temp.current_value
      let base : List Finding × Bool :=
        if current < tr.min ∨ current > tr.max then
          ([{ asset_id := aid, metric_name := .temperature, threshold_type := .out_of_range,
              severity := .high, title := "Temperature Out of Range",
              description := aname ++ ": Temperature at " ++ fmt current ++ temp.unit ++
                " - outside acceptable range (" ++ fmt tr.min ++ "-" ++ fmt tr.max ++
                temp.unit ++ ")" }], true)
        else if current ≥ tr.max * (9/10) ∨ current ≤ tr.min * (11/10) then
          ([{ asset_id := aid, metric_name := .temperature, threshold_type := .approaching_limit,
              severity := .medium, title := "Temperature Approaching Limit",
              description := aname ++ ": Temperature at " ++ fmt current ++ temp.unit ++
                " - approaching range limit" }], false)
        else if current ≥ tr.max * (3/4) then
          ([{ asset_id := aid, metric_name := .temperature, threshold_type := .elevated,
              severity := .low, title := "Elevated Temperature",
              description := aname ++ ": Temperature at " ++ fmt current ++ temp.unit ++
                " - monitor closely" }], false)
        else ([], false)
      let trendFindings : List Finding :=
        match temp.trend_value with
        | some t =>
            if t ≠ 0 ∧ current > t + 10 then
              [{ asset_id := aid, metric_name := .temperature, threshold_type := .rising_trend,
                 severity := .medium, title := "Rising Temperature Trend",
                 description := aname ++ ": Temperature increased " ++ fmt (current - t) ++
                   temp.unit ++ " in last hour" }]
            else []
        | none => []
      (base.1 ++ trendFindings, base.2)
  | _, _ => ([], false)

/-- The `# Check pressure` block: out-of-range, else approaching-limit. -/
def checkPressure (aid : Nat) (aname : String) (reading : Option MetricReading)
    (rng : Option MRange) : List Finding × Bool :=
  match reading, rng with
  | some pr, some prr =>
      let current := pr.current_value
      if current < prr.min ∨ current > prr.max then
        ([{ asset_id := aid, metric_name := .pressure, threshold_type := .out_of_range,
            severity := .high, title := "Pressure Out of Range",
            description := aname ++ ": Pressure at " ++ fmt current ++ pr.unit ++
              " - outside acceptable range (" ++ fmt prr.min ++ "-" ++ fmt prr.max ++
              pr.unit ++ ")" }], true)
      else if current ≥ prr.max * (9/10) ∨ current ≤ prr.min * (11/10) then
        ([{ asset_id := aid, metric_name := .pressure, threshold_type := .approaching_limit,
            severity := .medium, title := "Pressure Approaching Limit",
            description := aname ++ ": Pressure at " ++ fmt current ++ pr.unit ++
              " - monitor closely" }], false)
      else ([], false)
  | _, _ => ([], false)

/-- The `# Check power consumption` block: out-of-range, else the single
high-side approaching check `current >= max * 0.9` (no low-side check). -/
def checkPower (aid : Nat) (aname : String) (reading : Option MetricReading)
    (rng : Option MRange) : List Finding × Bool :=
  match reading, rng with
  | some pw, some pwr =>
      let current := pw.current_value
      if current < pwr.min ∨ current > pwr.max then
        ([{ asset_id := aid, metric_name := .power_consumption, threshold_type := .out_of_range,
            severity := .high, title := "Power Out of Range",
            description := aname ++ ": Power at " ++ fmt current ++ pw.unit ++
              " - outside acceptable range (" ++ fmt pwr.min ++ "-" ++ fmt pwr.max ++
              pw.unit ++ ")" }], true)
      else if current ≥ pwr.max * (9/10) then
        ([{ asset_id := aid, metric_name := .power_consumption,
            threshold_type := .approaching_limit, severity := .medium,
            title := "High Power Consumption",
            description := aname ++ ": Power at " ++ fmt current ++ pw.unit ++
              " - approaching maximum" }], false)
      else ([], false)
  | _, _ => ([], false)

/-- The `# Check production output` block: out-of-range, else the low-side
`current <= min * 1.1` low-production check, then the independent declining
trend check. -/
def checkProduction (aid : Nat) (aname : String) (reading : Option MetricReading)
    (rng : Option MRange) : List Finding × Bool :=
  match reading, rng with
  | some prod, some pdr =>
      let current := prod.current_value
      let base : List Finding × Bool :=
        if current < pdr.min ∨ current > pdr.max then
          ([{ asset_id := aid, metric_name := .production_output, threshold_type := .out_of_range,
              severity := .high, title := "Production Out of Range",
              description := aname ++ ": Output at " ++ fmt current ++ prod.unit ++
                " - outside acceptable range (" ++ fmt pdr.min ++ "-" ++ fmt pdr.max ++
                prod.unit ++ ")" }], true)
        else if current ≤ pdr.min * (11/10) then
          ([{ asset_id := aid, metric_name := .production_output,
              threshold_type := .low_production, severity := .medium,
              title := "Production Below Target",
              description := aname ++ ": Output at " ++ fmt current ++ prod.unit ++
                " - below optimal range" }], false)
        else ([], false)
      let trendFindings : List Finding :=
        match prod.trend_value with
        | some t =>
            if t ≠ 0 ∧ current < t - 20 then
              [{ asset_id := aid, metric_name := .production_output,
                 threshold_type := .declining_production, severity := .medium,
                 title := "Production Declining",
                 description := aname ++ ": Output dropped " ++ fmt (t - current) ++
                   prod.unit ++ " in last hour" }]
            else []
        | none => []
      (base.1 ++ trendFindings, base.2)
  | _, _ => ([], false)

/-- One iteration of the per-asset analysis loop: the four metric blocks in
source order; findings are appended in order and `any_out_of_range` is the
disjunction of the blocks' out-of-range flags. -/
def checkAsset (ad : AssetData) (asset_ranges : List (Metric × MRange)) :
    List Finding × Bool :=
  let t := checkTemperature ad.asset_id ad.asset_name
    (lookupIn Metric.temperature ad.metrics) (lookupIn Metric.temperature asset_ranges)
  let p := checkPressure ad.asset_id ad.asset_name
    (lookupIn Metric.pressure ad.metrics) (lookupIn Metric.pressure asset_ranges)
  let w := checkPower ad.asset_id ad.asset_name
    (lookupIn Metric.power_consumption ad.metrics) (lookupIn Metric.power_consumption asset_ranges)
  let o := checkProduction ad.asset_id ad.asset_name
    (lookupIn Metric.production_output ad.metrics) (lookupIn Metric.production_output asset_ranges)
  (t.1 ++ p.1 ++ w.1 ++ o.1, t.2 || p.2 || w.2 || o.2)

/-- Operational ranges of one asset (empty when none configured). -/
def rangesFor (ranges : List (Nat × List (Metric × MRange))) (aid : Nat) :
    List (Metric × MRange) :=
  (lookupIn aid ranges).getD []

/-- `detected_issues` accumulated over the per-asset analysis loop. -/
def detectIssues (assetsData : List AssetData)
    (ranges : List (Nat × List (Metric × MRange))) : List Finding :=
  assetsData.flatMap fun ad => (checkAsset ad (rangesFor ranges ad.asset_id)).1

/-- `assets_to_update_status` accumulated over the per-asset analysis loop:
`maintenance` when some metric was out of range, else `operational`. -/
def statusTargets (assetsData : List AssetData)
    (ranges : List (Nat × List (Metric × MRange))) : List (Nat × String) :=
  assetsData.map fun ad =>
    (ad.asset_id,
     if (checkAsset ad (rangesFor ranges ad.asset_id)).2 then "maintenance" else "operational")

/-- A persisted row of `operational_insights`. -/
structure InsightRow where
  facility_id : Nat
  asset_id : Option Nat
  metric_name : Metric
  threshold_type : ThresholdType
  severity : Severity
  title : String
  description : String
  is_active : Bool
  detected_at : Nat
  updated_at : Nat
  resolved_at : Option Nat
deriving DecidableEq

/-- A persisted row of `assets` (the fields `manage_insights` touches). -/
structure AssetRow where
  id : Nat
  status : String
  updated_at : Nat
deriving DecidableEq

/-- The stored state read and written by one analysis cycle. -/
structure DB where
  assets : List AssetRow
  insights : List InsightRow
deriving DecidableEq

/-- `COALESCE(asset_id, '00000000-…'::uuid)` with the sentinel as `0`. -/
def coalesce (o : Option Nat) : Nat :=
  o.getD 0

/-- The `ON CONFLICT` target of the upsert: an active row of the same
facility whose (metric, threshold type, coalesced asset id) match the
inserted finding. -/
def keyMatches (fid : Nat) (f : Finding) (r : InsightRow) : Prop :=
  r.is_active = true ∧ r.facility_id = fid ∧ r.metric_name = f.metric_name ∧
    r.threshold_type = f.threshold_type ∧ coalesce r.asset_id = f.asset_id

instance (fid : Nat) (f : Finding) (r : InsightRow) : Decidable (keyMatches fid f r) := by
  unfold keyMatches; infer_instance

/-- One `INSERT … ON CONFLICT … DO UPDATE` of the upsert loop: if an active
row for the identity key exists, set its `description` and `updated_at`;
otherwise insert a fresh active row with `detected_at = now()`. -/
def upsertOne (fid now : Nat) (f : Finding) (ins : List InsightRow) : List InsightRow :=
  if ins.any fun r => decide (keyMatches fid f r) then
    ins.map fun r =>
      if keyMatches fid f r then { r with description := f.description, updated_at := now }
      else r
  else
    ins ++ [{ facility_id := fid, asset_id := some f.asset_id, metric_name := f.metric_name,
              threshold_type := f.threshold_type, severity := f.severity, title := f.title,
              description := f.description, is_active := true, detected_at := now,
              updated_at := now, resolved_at := none }]

/-- The upsert loop over `detected_issues`. -/
def upsertAll (fid now : Nat) (issues : List Finding) (ins : List InsightRow) :
    List InsightRow :=
  issues.foldl (fun acc f => upsertOne fid now f acc) ins

/-- The identity-key triple of a stored insight as compared against
`detected_types` (Python tuple `(asset_id, metric_name, threshold_type)`). -/
def keyOf (r : InsightRow) : Option Nat × Metric × ThresholdType :=
  (r.asset_id, r.metric_name, r.threshold_type)

/-- `detected_types`: the set of identity keys implied by the cycle's
findings (every detected issue carries a concrete asset id). -/
def detectedTypes (issues : List Finding) : List (Option Nat × Metric × ThresholdType) :=
  issues.map fun f => (some f.asset_id, f.metric_name, f.threshold_type)

/-- The resolving `UPDATE`: deactivate the active rows of the facility whose
coalesced key equals the given key, setting `resolved_at = now()`. -/
def resolveOne (fid now : Nat) (key : Option Nat × Metric × ThresholdType)
    (ins : List InsightRow) : List InsightRow :=
  ins.map fun r =>
    if r.facility_id = fid ∧ coalesce r.asset_id = coalesce key.1 ∧
        r.metric_name = key.2.1 ∧ r.threshold_type = key.2.2 ∧ r.is_active = true then
      { r with is_active := false, resolved_at := some now }
    else r

/-- The resolution step: fetch the facility's active insights once, then
resolve each whose key is not among `detected_types`. -/
def resolveStep (fid now : Nat) (issues : List Finding) (ins : List InsightRow) :
    List InsightRow :=
  let dts := detectedTypes issues
  let activeRows := ins.filter fun r => decide (r.facility_id = fid) && r.is_active
  activeRows.foldl
    (fun acc r => if keyOf r ∈ dts then acc else resolveOne fid now (keyOf r) acc) ins

/-- `manage_insights(facility_id)` after the loads: evaluate every asset,
update asset statuses (only where they differ), upsert the detected issues,
then resolve the no-longer-detected active insights — in that source order. -/
def applyOneStatus (now : Nat) (aid : Nat) (st : String) (assets : List AssetRow) :
    List AssetRow :=
  assets.map fun row =>
    if row.id = aid ∧ row.status ≠ st then { row with status := st, updated_at := now }
    else row

/-- The asset-status update loop (`UPDATE assets … WHERE id = $2 AND status != $1`). -/
def applyStatusUpdates (now : Nat) (ups : List (Nat × String)) (assets : List AssetRow) :
    List AssetRow :=
  ups.foldl (fun acc p => applyOneStatus now p.1 p.2 acc) assets

/-- One run of `manage_insights` for a facility, as a transformer of the
stored state. -/
def manage_insights (fid now : Nat) (assetsData : List AssetData)
    (ranges : List (Nat × List (Metric × MRange))) (db : DB) : DB :=
  let issues := detectIssues assetsData ranges
  let targets := statusTargets assetsData ranges
  let assets1 := applyStatusUpdates now targets db.assets
  let ins1 := upsertAll fid now issues db.insights
  let ins2 := resolveStep fid now issues ins1
  { assets := assets1, insights := ins2 }

/-! ### Traced analysis cycle (step ordering) -/

/-- Observable steps of one analysis cycle for a facility. -/
inductive CycleStep
  | evaluate
  | projectStatus
  | upsertInsights
  | resolveInsights
  | signal
deriving DecidableEq

/-- Modelled from the spec: the AnalysisCycle orchestrator (§4.5) whose call
site is not under src/ — it runs `manage_insights` for the facility and then
emits the `FacilityEventBroadcaster.broadcast_update` pulse. The first four
steps and their order are the source order of `manage_insights` itself
(evaluation loop, asset-status update loop, upsert loop, resolution loop);
the trailing `signal` step is the spec-modelled broadcast. Each step is
paired with the stored state visible once that step has completed, so the
state paired with `signal` is what a woken consumer re-reads. -/
def runOnceTraced (fid now : Nat) (assetsData : List AssetData)
    (ranges : List (Nat × List (Metric × MRange))) (db : DB) :
    List (CycleStep × DB) :=
  let issues := detectIssues assetsData ranges
  let targets := statusTargets assetsData ranges
  let db1 : DB := { db with assets := applyStatusUpdates now targets db.assets }
  let db2 : DB := { db1 with insights := upsertAll fid now issues db.insights }
  let db3 : DB := { db2 with insights := resolveStep fid now issues db2.insights }
  [(CycleStep.evaluate, db), (CycleStep.projectStatus, db1),
   (CycleStep.upsertInsights, db2), (CycleStep.resolveInsights, db3),
   (CycleStep.signal, db3)]

/-! ### SSE stream generator (api/dashboard.py `event_generator`) -/

/-- Outcome of the `try` block that rebuilds the snapshot after a wake:
the facility lookup returned no row, the summary was built and serialized,
or an unexpected exception was raised while building/serializing. -/
inductive FetchOutcome
  | notFound
  | built (payload : String)
  | raised (msg : String)
deriving DecidableEq

/-- Environment of one iteration of the `while True` loop: whether the
client was observed disconnected, whether `wait_for_update` reported a
signal before the timeout, and what the snapshot rebuild did. -/
structure IterInput where
  disconnected : Bool
  update_received : Bool
  outcome : FetchOutcome
deriving DecidableEq

/-- Events a consumer's SSE stream can emit. -/
inductive SSEEvent
  | summaryEvent (payload : String)
  | errorEvent (msg : String)
  | ping
deriving DecidableEq

/-- One iteration of `event_generator`: the events yielded and whether the
loop continues. Disconnect stops the loop; a missing facility yields an
error event and breaks; a successful rebuild yields a summary event; an
exception during the rebuild yields an error event and falls through to the
next iteration (the `except` clause has no `break`); a timeout yields the
keep-alive comment. -/
def streamIteration (it : IterInput) : List SSEEvent × Bool :=
  if it.disconnected then ([], false)
  else if it.update_received then
    match it.outcome with
    | FetchOutcome.notFound => ([SSEEvent.errorEvent "Facility not found"], false)
    | FetchOutcome.built payload => ([SSEEvent.summaryEvent payload], true)
    | FetchOutcome.raised msg => ([SSEEvent.errorEvent msg], true)
  else ([SSEEvent.ping], true)

/-- The generator run over a finite schedule of iteration environments:
concatenates the yielded events until an iteration stops the loop. -/
def streamRun : List IterInput → List SSEEvent
  | [] => []
  | it :: rest =>
      let step := streamIteration it
      if step.2 then step.1 ++ streamRun rest else step.1

/-! ### Lemmas about the per-metric evaluator blocks -/

/-- Absolute-bound threshold types (as opposed to the trend-based ones). -/
def absType (t : ThresholdType) : Bool :=
  decide (t = ThresholdType.out_of_range ∨ t = ThresholdType.approaching_limit ∨
    t = ThresholdType.elevated)

theorem checkTemperature_fields (aid : Nat) (an : String) (mr : Option MetricReading)
    (rg : Option MRange) :
    ∀ f ∈ (checkTemperature aid an mr rg).1,
      f.asset_id = aid ∧ f.metric_name = Metric.temperature := by
  rcases mr with _ | ⟨cur, u, tv⟩
  · simp [checkTemperature]
  rcases rg with _ | ⟨rmin, rmax, ru⟩
  · simp [checkTemperature]
  rcases tv with _ | t <;>
  · intro f hf
    simp only [checkTemperature] at hf
    split_ifs at hf <;> simp_all <;> (rcases hf with rfl | rfl <;> simp)

theorem checkTemperature_oor_iff (aid : Nat) (an : String) (mr : Option MetricReading)
    (rg : Option MRange) :
    (checkTemperature aid an mr rg).2 = true ↔
      ∃ f ∈ (checkTemperature aid an mr rg).1,
        f.threshold_type = ThresholdType.out_of_range := by
  rcases mr with _ | ⟨cur, u, tv⟩
  · simp [checkTemperature]
  rcases rg with _ | ⟨rmin, rmax, ru⟩
  · simp [checkTemperature]
  rcases tv with _ | t <;>
  · simp only [checkTemperature]
    split_ifs <;> simp_all

theorem checkTemperature_type_inj (aid : Nat) (an : String) (mr : Option MetricReading)
    (rg : Option MRange) :
    ∀ f ∈ (checkTemperature aid an mr rg).1, ∀ g ∈ (checkTemperature aid an mr rg).1,
      f.threshold_type = g.threshold_type → f = g := by
  rcases mr with _ | ⟨cur, u, tv⟩
  · simp [checkTemperature]
  rcases rg with _ | ⟨rmin, rmax, ru⟩
  · simp [checkTemperature]
  rcases tv with _ | t <;>
  · intro f hf g hg
    simp only [checkTemperature] at hf hg
    split_ifs at hf hg <;> simp_all <;>
      (rcases hf with rfl | rfl <;> rcases hg with rfl | rfl <;> simp_all)

theorem checkTemperature_abs_count (aid : Nat) (an : String) (mr : Option MetricReading)
    (rg : Option MRange) :
    ((checkTemperature aid an mr rg).1.countP fun f => absType f.threshold_type) ≤ 1 := by
  rcases mr with _ | ⟨cur, u, tv⟩
  · simp [checkTemperature]
  rcases rg with _ | ⟨rmin, rmax, ru⟩
  · simp [checkTemperature]
  rcases tv with _ | t <;>
  · simp only [checkTemperature]
    split_ifs <;> simp_all [List.countP_cons, List.countP_append, absType]

theorem checkTemperature_trend_zero (aid : Nat) (an : String) (cur : ℚ) (u : String)
    (rg : Option MRange) :
    ∀ f ∈ (checkTemperature aid an (some ⟨cur, u, some 0⟩) rg).1,
      f.threshold_type ≠ ThresholdType.rising_trend := by
  rcases rg with _ | ⟨rmin, rmax, ru⟩
  · simp [checkTemperature]
  · intro f hf
    simp only [checkTemperature] at hf
    split_ifs at hf <;> simp_all

theorem checkPressure_fields (aid : Nat) (an : String) (mr : Option MetricReading)
    (rg : Option MRange) :
    ∀ f ∈ (checkPressure aid an mr rg).1,
      f.asset_id = aid ∧ f.metric_name = Metric.pressure := by
  rcases mr with _ | ⟨cur, u, tv⟩
  · simp [checkPressure]
  rcases rg with _ | ⟨rmin, rmax, ru⟩
  · simp [checkPressure]
  · intro f hf
    simp only [checkPressure] at hf
    split_ifs at hf <;> simp_all

theorem checkPressure_oor_iff (aid : Nat) (an : String) (mr : Option MetricReading)
    (rg : Option MRange) :
    (checkPressure aid an mr rg).2 = true ↔
      ∃ f ∈ (checkPressure aid an mr rg).1,
        f.threshold_type = ThresholdType.out_of_range := by
  rcases mr with _ | ⟨cur, u, tv⟩
  · simp [checkPressure]
  rcases rg with _ | ⟨rmin, rmax, ru⟩
  · simp [checkPressure]
  · simp only [checkPressure]
    split_ifs <;> simp_all

theorem checkPressure_type_inj (aid : Nat) (an : String) (mr : Option MetricReading)
    (rg : Option MRange) :
    ∀ f ∈ (checkPressure aid an mr rg).1, ∀ g ∈ (checkPressure aid an mr rg).1,
      f.threshold_type = g.threshold_type → f = g := by
  rcases mr with _ | ⟨cur, u, tv⟩
  · simp [checkPressure]
  rcases rg with _ | ⟨rmin, rmax, ru⟩
  · simp [checkPressure]
  · intro f hf g hg
    simp only [checkPressure] at hf hg
    split_ifs at hf hg <;> simp_all

theorem checkPressure_abs_count (aid : Nat) (an : String) (mr : Option MetricReading)
    (rg : Option MRange) :
    ((checkPressure aid an mr rg).1.countP fun f => absType f.threshold_type) ≤ 1 := by
  rcases mr with _ | ⟨cur, u, tv⟩
  · simp [checkPressure]
  rcases rg with _ | ⟨rmin, rmax, ru⟩
  · simp [checkPressure]
  · simp only [checkPressure]
    split_ifs <;> simp_all [List.countP_cons, absType]

theorem checkPower_fields (aid : Nat) (an : String) (mr : Option MetricReading)
    (rg : Option MRange) :
    ∀ f ∈ (checkPower aid an mr rg).1,
      f.asset_id = aid ∧ f.metric_name = Metric.power_consumption := by
  rcases mr with _ | ⟨cur, u, tv⟩
  · simp [checkPower]
  rcases rg with _ | ⟨rmin, rmax, ru⟩
  · simp [checkPower]
  · intro f hf
    simp only [checkPower] at hf
    split_ifs at hf <;> simp_all

theorem checkPower_oor_iff (aid : Nat) (an : String) (mr : Option MetricReading)
    (rg : Option MRange) :
    (checkPower aid an mr rg).2 = true ↔
      ∃ f ∈ (checkPower aid an mr rg).1,
        f.threshold_type = ThresholdType.out_of_range := by
  rcases mr with _ | ⟨cur, u, tv⟩
  · simp [checkPower]
  rcases rg with _ | ⟨rmin, rmax, ru⟩
  · simp [checkPower]
  · simp only [checkPower]
    split_ifs <;> simp_all

theorem checkPower_type_inj (aid : Nat) (an : String) (mr : Option MetricReading)
    (rg : Option MRange) :
    ∀ f ∈ (checkPower aid an mr rg).1, ∀ g ∈ (checkPower aid an mr rg).1,
      f.threshold_type = g.threshold_type → f = g := by
  rcases mr with _ | ⟨cur, u, tv⟩
  · simp [checkPower]
  rcases rg with _ | ⟨rmin, rmax, ru⟩
  · simp [checkPower]
  · intro f hf g hg
    simp only [checkPower] at hf hg
    split_ifs at hf hg <;> simp_all

theorem checkPower_abs_count (aid : Nat) (an : String) (mr : Option MetricReading)
    (rg : Option MRange) :
    ((checkPower aid an mr rg).1.countP fun f => absType f.threshold_type) ≤ 1 := by
  rcases mr with _ | ⟨cur, u, tv⟩
  · simp [checkPower]
  rcases rg with _ | ⟨rmin, rmax, ru⟩
  · simp [checkPower]
  · simp only [checkPower]
    split_ifs <;> simp_all [List.countP_cons, absType]

theorem checkProduction_fields (aid : Nat) (an : String) (mr : Option MetricReading)
    (rg : Option MRange) :
    ∀ f ∈ (checkProduction aid an mr rg).1,
      f.asset_id = aid ∧ f.metric_name = Metric.production_output := by
  rcases mr with _ | ⟨cur, u, tv⟩
  · simp [checkProduction]
  rcases rg with _ | ⟨rmin, rmax, ru⟩
  · simp [checkProduction]
  rcases tv with _ | t <;>
  · intro f hf
    simp only [checkProduction] at hf
    split_ifs at hf <;> simp_all <;> (rcases hf with rfl | rfl <;> simp)

theorem checkProduction_oor_iff (aid : Nat) (an : String) (mr : Option MetricReading)
    (rg : Option MRange) :
    (checkProduction aid an mr rg).2 = true ↔
      ∃ f ∈ (checkProduction aid an mr rg).1,
        f.threshold_type = ThresholdType.out_of_range := by
  rcases mr with _ | ⟨cur, u, tv⟩
  · simp [checkProduction]
  rcases rg with _ | ⟨rmin, rmax, ru⟩
  · simp [checkProduction]
  rcases tv with _ | t <;>
  · simp only [checkProduction]
    split_ifs <;> simp_all

theorem checkProduction_type_inj (aid : Nat) (an : String) (mr : Option MetricReading)
    (rg : Option MRange) :
    ∀ f ∈ (checkProduction aid an mr rg).1, ∀ g ∈ (checkProduction aid an mr rg).1,
      f.threshold_type = g.threshold_type → f = g := by
  rcases mr with _ | ⟨cur, u, tv⟩
  · simp [checkProduction]
  rcases rg with _ | ⟨rmin, rmax, ru⟩
  · simp [checkProduction]
  rcases tv with _ | t <;>
  · intro f hf g hg
    simp only [checkProduction] at hf hg
    split_ifs at hf hg <;> simp_all <;>
      (rcases hf with rfl | rfl <;> rcases hg with rfl | rfl <;> simp_all)

theorem checkProduction_abs_count (aid : Nat) (an : String) (mr : Option MetricReading)
    (rg : Option MRange) :
    ((checkProduction aid an mr rg).1.countP fun f => absType f.threshold_type) ≤ 1 := by
  rcases mr with _ | ⟨cur, u, tv⟩
  · simp [checkProduction]
  rcases rg with _ | ⟨rmin, rmax, ru⟩
  · simp [checkProduction]
  rcases tv with _ | t <;>
  · simp only [checkProduction]
    split_ifs <;> simp_all [List.countP_cons, List.countP_append, absType]

theorem checkProduction_trend_zero (aid : Nat) (an : String) (cur : ℚ) (u : String)
    (rg : Option MRange) :
    ∀ f ∈ (checkProduction aid an (some ⟨cur, u, some 0⟩) rg).1,
      f.threshold_type ≠ ThresholdType.declining_production := by
  rcases rg with _ | ⟨rmin, rmax, ru⟩
  · simp [checkProduction]
  · intro f hf
    simp only [checkProduction] at hf
    split_ifs at hf <;> simp_all

/-! ### Lemmas about the per-asset evaluation -/

theorem checkAsset_asset_id (ad : AssetData) (ar : List (Metric × MRange)) :
    ∀ f ∈ (checkAsset ad ar).1, f.asset_id = ad.asset_id := by
  intro f hf
  simp only [checkAsset, List.mem_append] at hf
  rcases hf with ((hf | hf) | hf) | hf
  · exact (checkTemperature_fields _ _ _ _ f hf).1
  · exact (checkPressure_fields _ _ _ _ f hf).1
  · exact (checkPower_fields _ _ _ _ f hf).1
  · exact (checkProduction_fields _ _ _ _ f hf).1

theorem checkAsset_metric_block (ad : AssetData) (ar : List (Metric × MRange)) :
    ∀ f ∈ (checkAsset ad ar).1,
      (f.metric_name = Metric.temperature →
        f ∈ (checkTemperature ad.asset_id ad.asset_name
          (lookupIn Metric.temperature ad.metrics) (lookupIn Metric.temperature ar)).1) ∧
      (f.metric_name = Metric.pressure →
        f ∈ (checkPressure ad.asset_id ad.asset_name
          (lookupIn Metric.pressure ad.metrics) (lookupIn Metric.pressure ar)).1) ∧
      (f.metric_name = Metric.power_consumption →
        f ∈ (checkPower ad.asset_id ad.asset_name
          (lookupIn Metric.power_consumption ad.metrics) (lookupIn Metric.power_consumption ar)).1) ∧
      (f.metric_name = Metric.production_output →
        f ∈ (checkProduction ad.asset_id ad.asset_name
          (lookupIn Metric.production_output ad.metrics) (lookupIn Metric.production_output ar)).1) := by
  intro f hf
  simp only [checkAsset, List.mem_append] at hf
  rcases hf with ((hf | hf) | hf) | hf
  · have h := (checkTemperature_fields _ _ _ _ f hf).2
    refine ⟨fun _ => hf, fun hm => ?_, fun hm => ?_, fun hm => ?_⟩ <;> rw [h] at hm <;> cases hm
  · have h := (checkPressure_fields _ _ _ _ f hf).2
    refine ⟨fun hm => ?_, fun _ => hf, fun hm => ?_, fun hm => ?_⟩ <;> rw [h] at hm <;> cases hm
  · have h := (checkPower_fields _ _ _ _ f hf).2
    refine ⟨fun hm => ?_, fun hm => ?_, fun _ => hf, fun hm => ?_⟩ <;> rw [h] at hm <;> cases hm
  · have h := (checkProduction_fields _ _ _ _ f hf).2
    refine ⟨fun hm => ?_, fun hm => ?_, fun hm => ?_, fun _ => hf⟩ <;> rw [h] at hm <;> cases hm

theorem checkAsset_oor_iff (ad : AssetData) (ar : List (Metric × MRange)) :
    (checkAsset ad ar).2 = true ↔
      ∃ f ∈ (checkAsset ad ar).1, f.threshold_type = ThresholdType.out_of_range := by
  simp only [checkAsset, List.mem_append, Bool.or_eq_true]
  constructor
  · rintro (((h | h) | h) | h)
    · obtain ⟨f, hf, ht⟩ := (checkTemperature_oor_iff _ _ _ _).mp h
      exact ⟨f, Or.inl (Or.inl (Or.inl hf)), ht⟩
    · obtain ⟨f, hf, ht⟩ := (checkPressure_oor_iff _ _ _ _).mp h
      exact ⟨f, Or.inl (Or.inl (Or.inr hf)), ht⟩
    · obtain ⟨f, hf, ht⟩ := (checkPower_oor_iff _ _ _ _).mp h
      exact ⟨f, Or.inl (Or.inr hf), ht⟩
    · obtain ⟨f, hf, ht⟩ := (checkProduction_oor_iff _ _ _ _).mp h
      exact ⟨f, Or.inr hf, ht⟩
  · rintro ⟨f, (((hf | hf) | hf) | hf), ht⟩
    · exact Or.inl (Or.inl (Or.inl ((checkTemperature_oor_iff _ _ _ _).mpr ⟨f, hf, ht⟩)))
    · exact Or.inl (Or.inl (Or.inr ((checkPressure_oor_iff _ _ _ _).mpr ⟨f, hf, ht⟩)))
    · exact Or.inl (Or.inr ((checkPower_oor_iff _ _ _ _).mpr ⟨f, hf, ht⟩))
    · exact Or.inr ((checkProduction_oor_iff _ _ _ _).mpr ⟨f, hf, ht⟩)

theorem checkAsset_key_inj (ad : AssetData) (ar : List (Metric × MRange)) :
    ∀ f ∈ (checkAsset ad ar).1, ∀ g ∈ (checkAsset ad ar).1,
      f.metric_name = g.metric_name → f.threshold_type = g.threshold_type → f = g := by
  intro f hf g hg hm ht
  have hfb := checkAsset_metric_block ad ar f hf
  have hgb := checkAsset_metric_block ad ar g hg
  simp only [checkAsset, List.mem_append] at hf hg
  have hfm : f.metric_name = Metric.temperature ∨ f.metric_name = Metric.pressure ∨
      f.metric_name = Metric.power_consumption ∨ f.metric_name = Metric.production_output := by
    rcases hf with ((hf | hf) | hf) | hf
    · exact Or.inl (checkTemperature_fields _ _ _ _ f hf).2
    · exact Or.inr (Or.inl (checkPressure_fields _ _ _ _ f hf).2)
    · exact Or.inr (Or.inr (Or.inl (checkPower_fields _ _ _ _ f hf).2))
    · exact Or.inr (Or.inr (Or.inr (checkProduction_fields _ _ _ _ f hf).2))
  rcases hfm with hfm | hfm | hfm | hfm
  · exact checkTemperature_type_inj _ _ _ _ f (hfb.1 hfm) g (hgb.1 (hm ▸ hfm)) ht
  · exact checkPressure_type_inj _ _ _ _ f (hfb.2.1 hfm) g (hgb.2.1 (hm ▸ hfm)) ht
  · exact checkPower_type_inj _ _ _ _ f (hfb.2.2.1 hfm) g (hgb.2.2.1 (hm ▸ hfm)) ht
  · exact checkProduction_type_inj _ _ _ _ f (hfb.2.2.2 hfm) g (hgb.2.2.2 (hm ▸ hfm)) ht

theorem checkAsset_abs_count (ad : AssetData) (ar : List (Metric × MRange)) (m : Metric) :
    ((checkAsset ad ar).1.countP fun f =>
      decide (f.metric_name = m) && absType f.threshold_type) ≤ 1 := by
  have hmono : ∀ (l : List Finding),
      (l.countP fun f => decide (f.metric_name = m) && absType f.threshold_type) ≤
        l.countP fun f => absType f.threshold_type :=
    fun l => List.countP_mono_left (by intro x _ hx; simp only [Bool.and_eq_true] at hx; exact hx.2)
  have hzero : ∀ (l : List Finding) (m' : Metric), (∀ f ∈ l, f.metric_name = m') → m' ≠ m →
      (l.countP fun f => decide (f.metric_name = m) && absType f.threshold_type) = 0 := by
    intro l m' hall hne
    rw [List.countP_eq_zero]
    intro f hf hcontra
    simp only [Bool.and_eq_true, decide_eq_true_eq] at hcontra
    exact hne ((hall f hf) ▸ hcontra.1)
  simp only [checkAsset, List.countP_append]
  rcases m with _ | _ | _ | _
  case temperature =>
    have h1 := le_trans (hmono _) (checkTemperature_abs_count ad.asset_id ad.asset_name
      (lookupIn Metric.temperature ad.metrics) (lookupIn Metric.temperature ar))
    rw [hzero _ Metric.pressure (fun f hf => (checkPressure_fields _ _ _ _ f hf).2) (by simp),
        hzero _ Metric.power_consumption (fun f hf => (checkPower_fields _ _ _ _ f hf).2) (by simp),
        hzero _ Metric.production_output (fun f hf => (checkProduction_fields _ _ _ _ f hf).2) (by simp)]
    omega
  case pressure =>
    have h1 := le_trans (hmono _) (checkPressure_abs_count ad.asset_id ad.asset_name
      (lookupIn Metric.pressure ad.metrics) (lookupIn Metric.pressure ar))
    rw [hzero _ Metric.temperature (fun f hf => (checkTemperature_fields _ _ _ _ f hf).2) (by simp),
        hzero _ Metric.power_consumption (fun f hf => (checkPower_fields _ _ _ _ f hf).2) (by simp),
        hzero _ Metric.production_output (fun f hf => (checkProduction_fields _ _ _ _ f hf).2) (by simp)]
    omega
  case power_consumption =>
    have h1 := le_trans (hmono _) (checkPower_abs_count ad.asset_id ad.asset_name
      (lookupIn Metric.power_consumption ad.metrics) (lookupIn Metric.power_consumption ar))
    rw [hzero _ Metric.temperature (fun f hf => (checkTemperature_fields _ _ _ _ f hf).2) (by simp),
        hzero _ Metric.pressure (fun f hf => (checkPressure_fields _ _ _ _ f hf).2) (by simp),
        hzero _ Metric.production_output (fun f hf => (checkProduction_fields _ _ _ _ f hf).2) (by simp)]
    omega
  case production_output =>
    have h1 := le_trans (hmono _) (checkProduction_abs_count ad.asset_id ad.asset_name
      (lookupIn Metric.production_output ad.metrics) (lookupIn Metric.production_output ar))
    rw [hzero _ Metric.temperature (fun f hf => (checkTemperature_fields _ _ _ _ f hf).2) (by simp),
        hzero _ Metric.pressure (fun f hf => (checkPressure_fields _ _ _ _ f hf).2) (by simp),
        hzero _ Metric.power_consumption (fun f hf => (checkPower_fields _ _ _ _ f hf).2) (by simp)]
    omega

/-! ### Lemmas about the facility-wide evaluation -/

theorem mem_detectIssues {assetsData : List AssetData}
    {ranges : List (Nat × List (Metric × MRange))} {f : Finding} :
    f ∈ detectIssues assetsData ranges ↔
      ∃ ad ∈ assetsData, f ∈ (checkAsset ad (rangesFor ranges ad.asset_id)).1 := by
  simp [detectIssues, List.mem_flatMap]

theorem detectIssues_key_inj {assetsData : List AssetData}
    {ranges : List (Nat × List (Metric × MRange))}
    (hnd : (assetsData.map AssetData.asset_id).Nodup) :
    ∀ f ∈ detectIssues assetsData ranges, ∀ g ∈ detectIssues assetsData ranges,
      f.asset_id = g.asset_id → f.metric_name = g.metric_name →
      f.threshold_type = g.threshold_type → f = g := by
  intro f hf g hg ha hm ht
  obtain ⟨ad1, had1, hf1⟩ := mem_detectIssues.mp hf
  obtain ⟨ad2, had2, hg1⟩ := mem_detectIssues.mp hg
  have e1 := checkAsset_asset_id ad1 _ f hf1
  have e2 := checkAsset_asset_id ad2 _ g hg1
  have : ad1 = ad2 := List.inj_on_of_nodup_map hnd had1 had2 (by omega)
  subst this
  exact checkAsset_key_inj ad1 _ f hf1 g hg1 hm ht

/-! ### Lemmas about the asset-status update loop -/

theorem applyStatusUpdates_preserve (now a : Nat) (s : String) :
    ∀ (ups : List (Nat × String)) (assets : List AssetRow),
      (∀ row ∈ assets, row.id = a → row.status = s) → a ∉ ups.map Prod.fst →
      ∀ row ∈ applyStatusUpdates now ups assets, row.id = a → row.status = s := by
  intro ups
  induction ups with
  | nil => intro assets h _ row hrow; exact h row hrow
  | cons p rest ih =>
      intro assets h hnot row hrow hid
      simp only [List.map_cons, List.mem_cons] at hnot
      push_neg at hnot
      refine ih (applyOneStatus now p.1 p.2 assets) ?_ hnot.2 row hrow hid
      intro row' hrow' hid'
      simp only [applyOneStatus, List.mem_map] at hrow'
      obtain ⟨r0, hr0, hup⟩ := hrow'
      by_cases hc : r0.id = p.1 ∧ r0.status ≠ p.2
      · rw [if_pos hc] at hup
        exact absurd (by rw [← hup] at hid'; exact hid' ▸ hc.1) hnot.1
      · rw [if_neg hc] at hup
        exact hup ▸ h r0 hr0 (hup ▸ hid')

theorem applyStatusUpdates_status (now : Nat) :
    ∀ (ups : List (Nat × String)) (assets : List AssetRow) (a : Nat) (s : String),
      (ups.map Prod.fst).Nodup → (a, s) ∈ ups →
      ∀ row ∈ applyStatusUpdates now ups assets, row.id = a → row.status = s := by
  intro ups
  induction ups with
  | nil => intro assets a s _ h; cases h
  | cons p rest ih =>
      intro assets a s hnd hmem row hrow hid
      simp only [List.map_cons, List.nodup_cons] at hnd
      rcases List.mem_cons.mp hmem with heq | hmem'
      · have hset : ∀ row' ∈ applyOneStatus now p.1 p.2 assets, row'.id = a → row'.status = s := by
          intro row' hrow' hid'
          simp only [applyOneStatus, List.mem_map] at hrow'
          obtain ⟨r0, _, hup⟩ := hrow'
          by_cases hc : r0.id = p.1 ∧ r0.status ≠ p.2
          · rw [if_pos hc] at hup
            rw [← hup]
            have : p = (a, s) := heq.symm
            simp [this]
          · rw [if_neg hc] at hup
            rw [not_and_or] at hc
            rcases hc with hc | hc
            · exact absurd (by rw [← hup] at hid'; rw [hid', ← heq]) hc
            · push_neg at hc
              rw [← hup, hc, ← heq]
        have hnota : a ∉ rest.map Prod.fst := by
          have : p.1 = a := by rw [← heq]
          exact this ▸ hnd.1
        exact applyStatusUpdates_preserve now a s rest _ hset hnota row hrow hid
      · exact ih (applyOneStatus now p.1 p.2 assets) a s hnd.2 hmem' row hrow hid

theorem applyStatusUpdates_fixed (now : Nat) :
    ∀ (ups : List (Nat × String)) (assets : List AssetRow),
      (∀ row ∈ assets, ∀ p ∈ ups, row.id = p.1 → row.status = p.2) →
      applyStatusUpdates now ups assets = assets := by
  intro ups
  induction ups with
  | nil => intro assets _; rfl
  | cons p rest ih =>
      intro assets h
      have hone : applyOneStatus now p.1 p.2 assets = assets := by
        unfold applyOneStatus
        conv_rhs => rw [← List.map_id assets]
        refine List.map_congr_left ?_
        intro row hrow
        have : ¬(row.id = p.1 ∧ row.status ≠ p.2) := by
          rw [not_and_or]
          by_cases hid : row.id = p.1
          · right; push_neg; exact h row hrow p (List.mem_cons_self p rest) hid
          · left; exact hid
        simp [this]
      show applyStatusUpdates now rest (applyOneStatus now p.1 p.2 assets) = assets
      rw [hone]
      exact ih assets fun row hrow q hq => h row hrow q (List.mem_cons_of_mem p hq)

/-! ### Lemmas about the upsert loop -/

/-- Agreement on every column the upsert UPDATE branch leaves untouched. -/
def coreEq (r r' : InsightRow) : Prop :=
  r'.facility_id = r.facility_id ∧ r'.asset_id = r.asset_id ∧
    r'.metric_name = r.metric_name ∧ r'.threshold_type = r.threshold_type ∧
    r'.severity = r.severity ∧ r'.title = r.title ∧ r'.is_active = r.is_active ∧
    r'.detected_at = r.detected_at ∧ r'.resolved_at = r.resolved_at

theorem coreEq_refl (r : InsightRow) : coreEq r r := by
  unfold coreEq; exact ⟨rfl, rfl, rfl, rfl, rfl, rfl, rfl, rfl, rfl⟩

theorem coreEq_trans {r1 r2 r3 : InsightRow} (h1 : coreEq r1 r2) (h2 : coreEq r2 r3) :
    coreEq r1 r3 := by
  unfold coreEq at *
  exact ⟨h2.1.trans h1.1, h2.2.1.trans h1.2.1, h2.2.2.1.trans h1.2.2.1,
    h2.2.2.2.1.trans h1.2.2.2.1, h2.2.2.2.2.1.trans h1.2.2.2.2.1,
    h2.2.2.2.2.2.1.trans h1.2.2.2.2.2.1, h2.2.2.2.2.2.2.1.trans h1.2.2.2.2.2.2.1,
    h2.2.2.2.2.2.2.2.1.trans h1.2.2.2.2.2.2.2.1, h2.2.2.2.2.2.2.2.2.trans h1.2.2.2.2.2.2.2.2⟩

theorem upsertOne_core (fid now : Nat) (f : Finding) (ins : List InsightRow) :
    ∀ r ∈ ins, ∃ r' ∈ upsertOne fid now f ins, coreEq r r' := by
  intro r hr
  unfold upsertOne
  split
  · refine ⟨if keyMatches fid f r then { r with description := f.description, updated_at := now }
      else r, List.mem_map_of_mem _ hr, ?_⟩
    split <;> simp [coreEq]
  · exact ⟨r, List.mem_append_left _ hr, coreEq_refl r⟩

theorem upsertAll_core (fid now : Nat) :
    ∀ (issues : List Finding) (ins : List InsightRow),
      ∀ r ∈ ins, ∃ r' ∈ upsertAll fid now issues ins, coreEq r r' := by
  intro issues
  induction issues with
  | nil => intro ins r hr; exact ⟨r, hr, coreEq_refl r⟩
  | cons f rest ih =>
      intro ins r hr
      obtain ⟨r1, hr1, hc1⟩ := upsertOne_core fid now f ins r hr
      obtain ⟨r2, hr2, hc2⟩ := ih (upsertOne fid now f ins) r1 hr1
      exact ⟨r2, hr2, coreEq_trans hc1 hc2⟩

theorem upsertOne_inactive_mem (fid now : Nat) (f : Finding) (ins : List InsightRow) :
    ∀ r ∈ ins, r.is_active = false → r ∈ upsertOne fid now f ins := by
  intro r hr hact
  unfold upsertOne
  split
  · have : ¬keyMatches fid f r := by
      unfold keyMatches; rw [hact]; simp
    have himg : (if keyMatches fid f r then
        { r with description := f.description, updated_at := now } else r) = r := if_neg this
    exact himg ▸ List.mem_map_of_mem _ hr
  · exact List.mem_append_left _ hr

theorem upsertAll_inactive_mem (fid now : Nat) :
    ∀ (issues : List Finding) (ins : List InsightRow),
      ∀ r ∈ ins, r.is_active = false → r ∈ upsertAll fid now issues ins := by
  intro issues
  induction issues with
  | nil => intro ins r hr _; exact hr
  | cons f rest ih =>
      intro ins r hr hact
      exact ih (upsertOne fid now f ins) r (upsertOne_inactive_mem fid now f ins r hr hact) hact

/-- An active row of the facility matching the identity key of a finding. -/
def hasMatch (fid : Nat) (f : Finding) (l : List InsightRow) : Prop :=
  ∃ r ∈ l, keyMatches fid f r

theorem upsertOne_hasMatch_self (fid now : Nat) (f : Finding) (ins : List InsightRow) :
    hasMatch fid f (upsertOne fid now f ins) := by
  unfold upsertOne
  split
  case isTrue h =>
    obtain ⟨r0, hr0, hk0⟩ := List.any_eq_true.mp h
    rw [decide_eq_true_eq] at hk0
    refine ⟨(if keyMatches fid f r0 then
      { r0 with description := f.description, updated_at := now } else r0),
      List.mem_map_of_mem _ hr0, ?_⟩
    rw [if_pos hk0]
    unfold keyMatches at hk0 ⊢
    exact ⟨hk0.1, hk0.2.1, hk0.2.2.1, hk0.2.2.2.1, hk0.2.2.2.2⟩
  case isFalse h =>
    refine ⟨_, List.mem_append_right _ (List.mem_singleton_self _), ?_⟩
    unfold keyMatches coalesce
    exact ⟨rfl, rfl, rfl, rfl, rfl⟩

theorem upsertOne_hasMatch_mono (fid now : Nat) (f g : Finding) (ins : List InsightRow) :
    hasMatch fid g ins → hasMatch fid g (upsertOne fid now f ins) := by
  rintro ⟨r, hr, hk⟩
  unfold upsertOne
  split
  · refine ⟨(if keyMatches fid f r then
      { r with description := f.description, updated_at := now } else r),
      List.mem_map_of_mem _ hr, ?_⟩
    unfold keyMatches at hk ⊢
    split <;> exact ⟨hk.1, hk.2.1, hk.2.2.1, hk.2.2.2.1, hk.2.2.2.2⟩
  · exact ⟨r, List.mem_append_left _ hr, hk⟩

theorem upsertAll_hasMatch_mono (fid now : Nat) :
    ∀ (issues : List Finding) (ins : List InsightRow) (f : Finding),
      hasMatch fid f ins → hasMatch fid f (upsertAll fid now issues ins) := by
  intro issues
  induction issues with
  | nil => intro ins f h; exact h
  | cons g rest ih =>
      intro ins f h
      exact ih (upsertOne fid now g ins) f (upsertOne_hasMatch_mono fid now g f ins h)

theorem upsertAll_hasMatch (fid now : Nat) :
    ∀ (issues : List Finding) (ins : List InsightRow) (f : Finding), f ∈ issues →
      hasMatch fid f (upsertAll fid now issues ins) := by
  intro issues
  induction issues with
  | nil => intro ins f hf; cases hf
  | cons g rest ih =>
      intro ins f hf
      rcases List.mem_cons.mp hf with heq | hf'
      · subst heq
        exact upsertAll_hasMatch_mono fid now rest (upsertOne fid now f ins) f
          (upsertOne_hasMatch_self fid now f ins)
      · exact ih (upsertOne fid now g ins) f hf'

theorem upsertOne_length_le (fid now : Nat) (f : Finding) (ins : List InsightRow) :
    ins.length ≤ (upsertOne fid now f ins).length := by
  unfold upsertOne
  split
  · rw [List.length_map]
  · rw [List.length_append]; omega

theorem upsertAll_length_le (fid now : Nat) :
    ∀ (issues : List Finding) (ins : List InsightRow),
      ins.length ≤ (upsertAll fid now issues ins).length := by
  intro issues
  induction issues with
  | nil => intro ins; exact le_refl _
  | cons f rest ih =>
      intro ins
      exact le_trans (upsertOne_length_le fid now f ins) (ih (upsertOne fid now f ins))

theorem upsertAll_active_detected (fid now : Nat)
    (D : List (Option Nat × Metric × ThresholdType)) :
    ∀ (issues : List Finding) (ins : List InsightRow),
      (∀ f ∈ issues, (some f.asset_id, f.metric_name, f.threshold_type) ∈ D) →
      (∀ r ∈ ins, r.is_active = true → r.facility_id = fid → keyOf r ∈ D) →
      ∀ r ∈ upsertAll fid now issues ins,
        r.is_active = true → r.facility_id = fid → keyOf r ∈ D := by
  intro issues
  induction issues with
  | nil => intro ins _ hins; exact hins
  | cons f rest ih =>
      intro ins hiss hins
      refine ih (upsertOne fid now f ins) (fun g hg => hiss g (List.mem_cons_of_mem f hg)) ?_
      intro r hr hact hfac
      unfold upsertOne at hr
      split at hr
      · obtain ⟨r0, hr0, himg⟩ := List.mem_map.mp hr
        by_cases hc : keyMatches fid f r0
        · rw [if_pos hc] at himg
          have : keyOf r = keyOf r0 := by rw [← himg]; rfl
          rw [this]
          refine hins r0 hr0 ?_ ?_
          · unfold keyMatches at hc; exact hc.1
          · unfold keyMatches at hc; exact hc.2.1
        · rw [if_neg hc] at himg
          exact himg ▸ hins r0 hr0 (himg ▸ hact) (himg ▸ hfac)
      · rcases List.mem_append.mp hr with hr' | hr'
        · exact hins r hr' hact hfac
        · rw [List.mem_singleton.mp hr']
          exact hiss f (List.mem_cons_self f rest)

/-- Key disagreement between two findings (as coalesced identity keys). -/
def keyDiff (f g : Finding) : Prop :=
  ¬(g.asset_id = f.asset_id ∧ g.metric_name = f.metric_name ∧
    g.threshold_type = f.threshold_type)

theorem upsertOne_desc_preserved (fid now : Nat) (f g : Finding) (ins : List InsightRow)
    (hkd : keyDiff f g)
    (h : ∀ r ∈ ins, keyMatches fid f r → r.description = f.description) :
    ∀ r ∈ upsertOne fid now g ins, keyMatches fid f r → r.description = f.description := by
  intro r hr hk
  unfold upsertOne at hr
  split at hr
  · obtain ⟨r0, hr0, himg⟩ := List.mem_map.mp hr
    by_cases hc : keyMatches fid g r0
    · rw [if_pos hc] at himg
      exfalso
      apply hkd
      have hk0 : keyMatches fid f r0 := by
        unfold keyMatches at hk ⊢
        rw [← himg] at hk
        exact hk
      unfold keyMatches at hk0 hc
      refine ⟨?_, ?_, ?_⟩
      · rw [← hk0.2.2.2.2, hc.2.2.2.2]
      · rw [← hk0.2.2.1, hc.2.2.1]
      · rw [← hk0.2.2.2.1, hc.2.2.2.1]
    · rw [if_neg hc] at himg
      exact himg ▸ h r0 hr0 (himg ▸ hk)
  · rcases List.mem_append.mp hr with hr' | hr'
    · exact h r hr' hk
    · exfalso
      apply hkd
      rw [List.mem_singleton.mp hr'] at hk
      unfold keyMatches coalesce at hk
      simp only [Option.getD_some] at hk
      exact ⟨hk.2.2.2.2, hk.2.2.1.symm ▸ rfl, hk.2.2.2.1.symm ▸ rfl⟩

theorem upsertAll_desc_preserved (fid now : Nat) (f : Finding) :
    ∀ (issues : List Finding) (ins : List InsightRow),
      (∀ g ∈ issues, keyDiff f g) →
      (∀ r ∈ ins, keyMatches fid f r → r.description = f.description) →
      ∀ r ∈ upsertAll fid now issues ins,
        keyMatches fid f r → r.description = f.description := by
  intro issues
  induction issues with
  | nil => intro ins _ h; exact h
  | cons g rest ih =>
      intro ins hkd h
      exact ih (upsertOne fid now g ins) (fun g' hg' => hkd g' (List.mem_cons_of_mem g hg'))
        (upsertOne_desc_preserved fid now f g ins (hkd g (List.mem_cons_self g rest)) h)

theorem upsertOne_desc_self (fid now : Nat) (f : Finding) (ins : List InsightRow) :
    ∀ r ∈ upsertOne fid now f ins, keyMatches fid f r → r.description = f.description := by
  intro r hr hk
  unfold upsertOne at hr
  split at hr
  · obtain ⟨r0, hr0, himg⟩ := List.mem_map.mp hr
    by_cases hc : keyMatches fid f r0
    · rw [if_pos hc] at himg
      rw [← himg]
    · rw [if_neg hc] at himg
      exact absurd (himg ▸ hk) hc
  case isFalse hany =>
    rcases List.mem_append.mp hr with hr' | hr'
    · exfalso
      have : ∀ r' ∈ ins, ¬(keyMatches fid f r') := by
        intro r' hr'' hk'
        have : ins.any (fun r => decide (keyMatches fid f r)) = true :=
          List.any_eq_true.mpr ⟨r', hr'', decide_eq_true hk'⟩
        exact hany this
      exact this r hr' hk
    · rw [List.mem_singleton.mp hr']

theorem upsertAll_matching_desc (fid now : Nat) :
    ∀ (issues : List Finding) (ins : List InsightRow) (f : Finding), f ∈ issues →
      (∀ g ∈ issues, g.asset_id = f.asset_id → g.metric_name = f.metric_name →
        g.threshold_type = f.threshold_type → g = f) →
      ∀ r ∈ upsertAll fid now issues ins,
        keyMatches fid f r → r.description = f.description := by
  intro issues
  induction issues with
  | nil => intro ins f hf; cases hf
  | cons g rest ih =>
      intro ins f hf hinj
      by_cases hrest : f ∈ rest
      · exact ih (upsertOne fid now g ins) f hrest
          (fun g' hg' ha hm ht => hinj g' (List.mem_cons_of_mem g hg') ha hm ht)
      · have heq : f = g := by
          rcases List.mem_cons.mp hf with heq | hf'
          · exact heq
          · exact absurd hf' hrest
        subst heq
        refine upsertAll_desc_preserved fid now f rest (upsertOne fid now f ins) ?_
          (upsertOne_desc_self fid now f ins)
        intro g' hg' hcontra
        exact hrest (hinj g' (List.mem_cons_of_mem f hg') hcontra.1 hcontra.2.1 hcontra.2.2 ▸ hg')

/-! ### Lemmas about the resolution step -/

/-- The fold at the heart of `resolveStep`, named for the induction proofs. -/
def resolveFold (fid now : Nat) (dts : List (Option Nat × Metric × ThresholdType))
    (act : List InsightRow) (ins : List InsightRow) : List InsightRow :=
  act.foldl (fun acc r => if keyOf r ∈ dts then acc else resolveOne fid now (keyOf r) acc) ins

theorem resolveStep_eq (fid now : Nat) (issues : List Finding) (ins : List InsightRow) :
    resolveStep fid now issues ins =
      resolveFold fid now (detectedTypes issues)
        (ins.filter fun r => decide (r.facility_id = fid) && r.is_active) ins := rfl

theorem resolveOne_inactive_fix (fid now : Nat)
    (key : Option Nat × Metric × ThresholdType) (r : InsightRow)
    (hact : r.is_active = false) :
    (if r.facility_id = fid ∧ coalesce r.asset_id = coalesce key.1 ∧
        r.metric_name = key.2.1 ∧ r.threshold_type = key.2.2 ∧ r.is_active = true then
      { r with is_active := false, resolved_at := some now }
    else r) = r := by
  rw [if_neg]
  rw [hact]
  simp

theorem resolveFold_inactive_mem (fid now : Nat)
    (dts : List (Option Nat × Metric × ThresholdType)) :
    ∀ (act acc : List InsightRow), ∀ r ∈ acc, r.is_active = false →
      r ∈ resolveFold fid now dts act acc := by
  intro act
  induction act with
  | nil => intro acc r hr _; exact hr
  | cons r0 rest ih =>
      intro acc r hr hact
      show r ∈ resolveFold fid now dts rest
        (if keyOf r0 ∈ dts then acc else resolveOne fid now (keyOf r0) acc)
      split
      · exact ih acc r hr hact
      · refine ih _ r ?_ hact
        have : r = (if r.facility_id = fid ∧
            coalesce r.asset_id = coalesce (keyOf r0).1 ∧
            r.metric_name = (keyOf r0).2.1 ∧ r.threshold_type = (keyOf r0).2.2 ∧
            r.is_active = true then
          { r with is_active := false, resolved_at := some now } else r) :=
          (resolveOne_inactive_fix fid now (keyOf r0) r hact).symm
        rw [this]
        exact List.mem_map_of_mem _ hr

theorem resolveFold_from (fid now : Nat)
    (dts : List (Option Nat × Metric × ThresholdType)) :
    ∀ (act acc : List InsightRow), ∀ r ∈ resolveFold fid now dts act acc,
      ∃ r0 ∈ acc, r = r0 ∨ r = { r0 with is_active := false, resolved_at := some now } := by
  intro act
  induction act with
  | nil => intro acc r hr; exact ⟨r, hr, Or.inl rfl⟩
  | cons q rest ih =>
      intro acc r hr
      replace hr : r ∈ resolveFold fid now dts rest
          (if keyOf q ∈ dts then acc else resolveOne fid now (keyOf q) acc) := hr
      split at hr
      · exact ih acc r hr
      · obtain ⟨r1, hr1, hform1⟩ := ih _ r hr
        obtain ⟨r0, hr0, himg⟩ := List.mem_map.mp hr1
        rcases hform1 with h1 | h1
        · subst h1
          refine ⟨r0, hr0, ?_⟩
          by_cases hc : r0.facility_id = fid ∧ coalesce r0.asset_id = coalesce (keyOf q).1 ∧
              r0.metric_name = (keyOf q).2.1 ∧ r0.threshold_type = (keyOf q).2.2 ∧
              r0.is_active = true
          · rw [if_pos hc] at himg
            exact Or.inr himg.symm
          · rw [if_neg hc] at himg
            exact Or.inl himg.symm
        · subst h1
          refine ⟨r0, hr0, Or.inr ?_⟩
          by_cases hc : r0.facility_id = fid ∧ coalesce r0.asset_id = coalesce (keyOf q).1 ∧
              r0.metric_name = (keyOf q).2.1 ∧ r0.threshold_type = (keyOf q).2.2 ∧
              r0.is_active = true
          · rw [if_pos hc] at himg
            rw [← himg]
          · rw [if_neg hc] at himg
            rw [← himg]

theorem resolveFold_length (fid now : Nat)
    (dts : List (Option Nat × Metric × ThresholdType)) :
    ∀ (act acc : List InsightRow), (resolveFold fid now dts act acc).length = acc.length := by
  intro act
  induction act with
  | nil => intro acc; rfl
  | cons q rest ih =>
      intro acc
      show (resolveFold fid now dts rest
        (if keyOf q ∈ dts then acc else resolveOne fid now (keyOf q) acc)).length = acc.length
      split
      · exact ih acc
      · rw [ih]
        exact List.length_map _ _

theorem coalesce_eq_nonzero {o : Option Nat} {a : Nat} (h : coalesce o = a) (ha : a ≠ 0) :
    o = some a := by
  cases o with
  | none => exact absurd (by unfold coalesce at h; simpa using h.symm) ha
  | some x => unfold coalesce at h; simpa using h

theorem resolveFold_active_detected (fid now : Nat)
    (dts : List (Option Nat × Metric × ThresholdType)) :
    ∀ (act acc : List InsightRow),
      (∀ row ∈ acc, row.is_active = true → row.facility_id = fid → keyOf row ∉ dts →
        ∃ r' ∈ act, keyOf r' ∉ dts ∧ coalesce r'.asset_id = coalesce row.asset_id ∧
          r'.metric_name = row.metric_name ∧ r'.threshold_type = row.threshold_type) →
      ∀ row ∈ resolveFold fid now dts act acc,
        row.is_active = true → row.facility_id = fid → keyOf row ∈ dts := by
  intro act
  induction act with
  | nil =>
      intro acc cov row hrow hact hfac
      by_cases hk : keyOf row ∈ dts
      · exact hk
      · obtain ⟨r', hr', _⟩ := cov row hrow hact hfac hk
        cases hr'
  | cons q rest ih =>
      intro acc cov row hrow
      replace hrow : row ∈ resolveFold fid now dts rest
          (if keyOf q ∈ dts then acc else resolveOne fid now (keyOf q) acc) := hrow
      split at hrow
      case isTrue hq =>
        refine ih acc ?_ row hrow
        intro r0 hr0 hact0 hfac0 hk0
        obtain ⟨r', hr', hprops⟩ := cov r0 hr0 hact0 hfac0 hk0
        rcases List.mem_cons.mp hr' with heq | hr''
        · exact absurd (heq ▸ hq) hprops.1
        · exact ⟨r', hr'', hprops⟩
      case isFalse hq =>
        refine ih (resolveOne fid now (keyOf q) acc) ?_ row hrow
        intro r1 hr1 hact1 hfac1 hk1
        obtain ⟨r0, hr0, himg⟩ := List.mem_map.mp hr1
        by_cases hc : r0.facility_id = fid ∧ coalesce r0.asset_id = coalesce (keyOf q).1 ∧
            r0.metric_name = (keyOf q).2.1 ∧ r0.threshold_type = (keyOf q).2.2 ∧
            r0.is_active = true
        · rw [if_pos hc] at himg
          exfalso
          rw [← himg] at hact1
          exact absurd hact1 (by simp)
        · rw [if_neg hc] at himg
          subst himg
          obtain ⟨r', hr', hprops⟩ := cov r0 hr0 hact1 hfac1 hk1
          rcases List.mem_cons.mp hr' with heq | hr'' 
          · exfalso
            apply hc
            subst heq
            exact ⟨hfac1, hprops.2.1.symm, hprops.2.2.1.symm, hprops.2.2.2.symm, hact1⟩
          · exact ⟨r', hr'', hprops⟩

theorem resolveStep_active_detected (fid now : Nat) (issues : List Finding)
    (ins : List InsightRow) :
    ∀ r ∈ resolveStep fid now issues ins, r.is_active = true → r.facility_id = fid →
      keyOf r ∈ detectedTypes issues := by
  rw [resolveStep_eq]
  refine resolveFold_active_detected fid now _ _ ins ?_
  intro row hrow hact hfac hkey
  exact ⟨row, List.mem_filter.mpr ⟨hrow, by rw [hact, hfac]; simp⟩, hkey, rfl, rfl, rfl⟩

theorem resolveOne_mem_of (fid now : Nat) (key : Option Nat × Metric × ThresholdType)
    (acc : List InsightRow) (r : InsightRow) (hr : r ∈ acc) :
    (if r.facility_id = fid ∧ coalesce r.asset_id = coalesce key.1 ∧
        r.metric_name = key.2.1 ∧ r.threshold_type = key.2.2 ∧ r.is_active = true then
      { r with is_active := false, resolved_at := some now }
    else r) ∈ resolveOne fid now key acc := by
  unfold resolveOne
  exact List.mem_map_of_mem _ hr

theorem resolveFold_resolves (fid now : Nat)
    (dts : List (Option Nat × Metric × ThresholdType)) :
    ∀ (act acc : List InsightRow) (row : InsightRow), row ∈ acc →
      row.is_active = true → row.facility_id = fid → keyOf row ∉ dts →
      (∃ r' ∈ act, keyOf r' ∉ dts ∧ coalesce r'.asset_id = coalesce row.asset_id ∧
        r'.metric_name = row.metric_name ∧ r'.threshold_type = row.threshold_type) →
      { row with is_active := false, resolved_at := some now } ∈
        resolveFold fid now dts act acc := by
  intro act
  induction act with
  | nil =>
      intro acc row _ _ _ _ cov
      obtain ⟨r', hr', _⟩ := cov
      cases hr'
  | cons q rest ih =>
      intro acc row hrow hact hfac hkey cov
      show _ ∈ resolveFold fid now dts rest
        (if keyOf q ∈ dts then acc else resolveOne fid now (keyOf q) acc)
      split
      case isTrue hq =>
        obtain ⟨r', hr', hprops⟩ := cov
        rcases List.mem_cons.mp hr' with heq | hr''
        · exact absurd (heq ▸ hq) hprops.1
        · exact ih acc row hrow hact hfac hkey ⟨r', hr'', hprops⟩
      case isFalse hq =>
        by_cases hc : row.facility_id = fid ∧ coalesce row.asset_id = coalesce (keyOf q).1 ∧
            row.metric_name = (keyOf q).2.1 ∧ row.threshold_type = (keyOf q).2.2 ∧
            row.is_active = true
        · have himg : { row with is_active := false, resolved_at := some now } ∈
              resolveOne fid now (keyOf q) acc := by
            have := resolveOne_mem_of fid now (keyOf q) acc row hrow
            rw [if_pos hc] at this
            exact this
          exact resolveFold_inactive_mem fid now dts rest _ _ himg rfl
        · have hmem : row ∈ resolveOne fid now (keyOf q) acc := by
            have := resolveOne_mem_of fid now (keyOf q) acc row hrow
            rw [if_neg hc] at this
            exact this
          obtain ⟨r', hr', hprops⟩ := cov
          rcases List.mem_cons.mp hr' with heq | hr''
          · exfalso
            apply hc
            subst heq
            exact ⟨hfac, hprops.2.1.symm, hprops.2.2.1.symm, hprops.2.2.2.symm, hact⟩
          · exact ih (resolveOne fid now (keyOf q) acc) row hmem hact hfac hkey ⟨r', hr'', hprops⟩

theorem resolveStep_resolves (fid now : Nat) (issues : List Finding)
    (ins : List InsightRow) :
    ∀ row ∈ ins, row.is_active = true → row.facility_id = fid →
      keyOf row ∉ detectedTypes issues →
      { row with is_active := false, resolved_at := some now } ∈
        resolveStep fid now issues ins := by
  intro row hrow hact hfac hkey
  rw [resolveStep_eq]
  refine resolveFold_resolves fid now _ _ ins row hrow hact hfac hkey ?_
  exact ⟨row, List.mem_filter.mpr ⟨hrow, by rw [hact, hfac]; simp⟩, hkey, rfl, rfl, rfl⟩

theorem resolveFold_preserves_key (fid now : Nat)
    (dts : List (Option Nat × Metric × ThresholdType)) (a : Nat) (m : Metric)
    (t : ThresholdType) (ha : a ≠ 0) (hdts : (some a, m, t) ∈ dts) :
    ∀ (act acc : List InsightRow),
      (∃ r ∈ acc, r.is_active = true ∧ r.facility_id = fid ∧ r.asset_id = some a ∧
        r.metric_name = m ∧ r.threshold_type = t) →
      ∃ r ∈ resolveFold fid now dts act acc, r.is_active = true ∧ r.facility_id = fid ∧
        r.asset_id = some a ∧ r.metric_name = m ∧ r.threshold_type = t := by
  intro act
  induction act with
  | nil => intro acc h; exact h
  | cons q rest ih =>
      intro acc h
      show ∃ r ∈ resolveFold fid now dts rest
        (if keyOf q ∈ dts then acc else resolveOne fid now (keyOf q) acc), _
      split
      case isTrue hq => exact ih acc h
      case isFalse hq =>
        obtain ⟨r, hr, hprops⟩ := h
        refine ih (resolveOne fid now (keyOf q) acc) ⟨r, ?_, hprops⟩
        have hc : ¬(r.facility_id = fid ∧ coalesce r.asset_id = coalesce (keyOf q).1 ∧
            r.metric_name = (keyOf q).2.1 ∧ r.threshold_type = (keyOf q).2.2 ∧
            r.is_active = true) := by
          rintro ⟨_, hco, hm, ht, _⟩
          apply hq
          have hqa : q.asset_id = some a := by
            refine coalesce_eq_nonzero (a := a) ?_ ha
            show coalesce (keyOf q).1 = a
            rw [← hco, hprops.2.2.1]
            unfold coalesce
            simp
          have hm' : q.metric_name = m := by
            show (keyOf q).2.1 = m
            rw [← hm, hprops.2.2.2.1]
          have ht' : q.threshold_type = t := by
            show (keyOf q).2.2 = t
            rw [← ht, hprops.2.2.2.2]
          have : keyOf q = (some a, m, t) := by
            unfold keyOf
            rw [hqa, hm', ht']
          exact this ▸ hdts
        have hmem : r ∈ resolveOne fid now (keyOf q) acc := by
          have := resolveOne_mem_of fid now (keyOf q) acc r hr
          rw [if_neg hc] at this
          exact this
        exact hmem

theorem resolveFold_noop (fid now : Nat)
    (dts : List (Option Nat × Metric × ThresholdType)) :
    ∀ (act acc : List InsightRow), (∀ r ∈ act, keyOf r ∈ dts) →
      resolveFold fid now dts act acc = acc := by
  intro act
  induction act with
  | nil => intro acc _; rfl
  | cons q rest ih =>
      intro acc h
      show resolveFold fid now dts rest
        (if keyOf q ∈ dts then acc else resolveOne fid now (keyOf q) acc) = acc
      rw [if_pos (h q (List.mem_cons_self q rest))]
      exact ih acc fun r hr => h r (List.mem_cons_of_mem q hr)

/-! ### Comparing stored states up to the freely-rewritten `updated_at` -/

/-- Forget the `updated_at` column (the only column the refresh path may
rewrite with a fresh timestamp on every cycle). -/
def strip (r : InsightRow) : InsightRow :=
  { r with updated_at := 0 }

theorem keyMatches_strip {x y : InsightRow} (h : strip x = strip y) (fid : Nat) (f : Finding) :
    keyMatches fid f x ↔ keyMatches fid f y := by
  cases x
  cases y
  simp only [strip, InsightRow.mk.injEq] at h
  unfold keyMatches
  simp_all

theorem forall2_exists_right {α β : Type} {R : α → β → Prop} :
    ∀ {l₁ : List α} {l₂ : List β}, List.Forall₂ R l₁ l₂ → ∀ y ∈ l₂, ∃ x ∈ l₁, R x y := by
  intro l₁ l₂ h
  induction h with
  | nil => intro y hy; cases hy
  | cons hR _ ih =>
      intro y hy
      rcases List.mem_cons.mp hy with heq | hy'
      · exact ⟨_, List.mem_cons_self _ _, heq ▸ hR⟩
      · obtain ⟨x, hx, hxy⟩ := ih y hy'
        exact ⟨x, List.mem_cons_of_mem _ hx, hxy⟩

theorem forall2_strip_map {l₁ l₂ : List InsightRow}
    (h : List.Forall₂ (fun x y => strip x = strip y) l₁ l₂) :
    l₁.map strip = l₂.map strip := by
  induction h with
  | nil => rfl
  | cons hR _ ih => simp only [List.map_cons, hR, ih]

theorem upsert_strip_forall2 (fid now : Nat) (f : Finding) :
    ∀ {acc base : List InsightRow},
      List.Forall₂ (fun x y => strip x = strip y) acc base →
      (∀ r ∈ base, keyMatches fid f r → r.description = f.description) →
      List.Forall₂ (fun x y => strip x = strip y)
        (acc.map fun r => if keyMatches fid f r then
          { r with description := f.description, updated_at := now } else r) base := by
  intro acc base h
  induction h with
  | nil => intro _; constructor
  | @cons x y l₁ l₂ hR hTail ih =>
      intro hdesc
      simp only [List.map_cons]
      refine List.Forall₂.cons ?_ (ih fun r hr hk => hdesc r (List.mem_cons_of_mem y hr) hk)
      by_cases hk : keyMatches fid f x
      · have hky : keyMatches fid f y := (keyMatches_strip hR fid f).mp hk
        have hdy : y.description = f.description := hdesc y (List.mem_cons_self y l₂) hky
        rw [if_pos hk]
        cases x
        cases y
        simp only [strip, InsightRow.mk.injEq] at hR ⊢
        simp_all
      · rw [if_neg hk]
        exact hR

theorem upsertAll_strip (fid now : Nat) :
    ∀ (issues : List Finding) (acc base : List InsightRow),
      (∀ f ∈ issues, hasMatch fid f base) →
      (∀ f ∈ issues, ∀ r ∈ base, keyMatches fid f r → r.description = f.description) →
      List.Forall₂ (fun x y => strip x = strip y) acc base →
      List.Forall₂ (fun x y => strip x = strip y) (upsertAll fid now issues acc) base := by
  intro issues
  induction issues with
  | nil => intro acc base _ _ h; exact h
  | cons f rest ih =>
      intro acc base hmatch hdesc h
      have hmf := hmatch f (List.mem_cons_self f rest)
      obtain ⟨rb, hrb, hkb⟩ := hmf
      obtain ⟨xa, hxa, hx⟩ := forall2_exists_right h rb hrb
      have hka : keyMatches fid f xa := (keyMatches_strip hx fid f).mpr hkb
      have hany : acc.any (fun r => decide (keyMatches fid f r)) = true :=
        List.any_eq_true.mpr ⟨xa, hxa, decide_eq_true hka⟩
      have hone : upsertOne fid now f acc = acc.map fun r => if keyMatches fid f r then
          { r with description := f.description, updated_at := now } else r := by
        unfold upsertOne
        rw [if_pos hany]
      show List.Forall₂ _ (upsertAll fid now rest (upsertOne fid now f acc)) base
      refine ih (upsertOne fid now f acc) base
        (fun g hg => hmatch g (List.mem_cons_of_mem f hg))
        (fun g hg => hdesc g (List.mem_cons_of_mem f hg)) ?_
      rw [hone]
      exact upsert_strip_forall2 fid now f h (hdesc f (List.mem_cons_self f rest))

theorem statusTargets_fst (assetsData : List AssetData)
    (ranges : List (Nat × List (Metric × MRange))) :
    (statusTargets assetsData ranges).map Prod.fst = assetsData.map AssetData.asset_id := by
  unfold statusTargets
  rw [List.map_map]
  rfl

theorem checkProduction_no_approaching (aid : Nat) (an : String) (mr : Option MetricReading)
    (rg : Option MRange) :
    ∀ f ∈ (checkProduction aid an mr rg).1,
      f.threshold_type ≠ ThresholdType.approaching_limit := by
  rcases mr with _ | ⟨cur, u, tv⟩
  · simp [checkProduction]
  rcases rg with _ | ⟨rmin, rmax, ru⟩
  · simp [checkProduction]
  rcases tv with _ | t <;>
  · intro f hf
    simp only [checkProduction] at hf
    split_ifs at hf <;> simp_all <;> (rcases hf with rfl | rfl <;> simp)

theorem detectIssues_abs_count (a : Nat) (m : Metric) :
    ∀ (assetsData : List AssetData) (ranges : List (Nat × List (Metric × MRange))),
      (assetsData.map AssetData.asset_id).Nodup →
      ((detectIssues assetsData ranges).countP fun f =>
        decide (f.asset_id = a) &&
          (decide (f.metric_name = m) && absType f.threshold_type)) ≤ 1 := by
  intro assetsData
  induction assetsData with
  | nil => intro ranges _; simp [detectIssues]
  | cons ad rest ih =>
      intro ranges hnd
      simp only [List.map_cons, List.nodup_cons] at hnd
      have hsplit : detectIssues (ad :: rest) ranges =
          (checkAsset ad (rangesFor ranges ad.asset_id)).1 ++ detectIssues rest ranges := by
        simp [detectIssues]
      rw [hsplit, List.countP_append]
      by_cases ha : ad.asset_id = a
      · have hzero : ((detectIssues rest ranges).countP fun f =>
            decide (f.asset_id = a) &&
              (decide (f.metric_name = m) && absType f.threshold_type)) = 0 := by
          rw [List.countP_eq_zero]
          intro f hf hp
          obtain ⟨ad', had', hf'⟩ := mem_detectIssues.mp hf
          have hfa := checkAsset_asset_id ad' _ f hf'
          simp only [Bool.and_eq_true, decide_eq_true_eq] at hp
          have : ad.asset_id ∈ rest.map AssetData.asset_id :=
            List.mem_map.mpr ⟨ad', had', by omega⟩
          exact hnd.1 this
        have hhead : ((checkAsset ad (rangesFor ranges ad.asset_id)).1.countP fun f =>
            decide (f.asset_id = a) &&
              (decide (f.metric_name = m) && absType f.threshold_type)) ≤ 1 :=
          le_trans (List.countP_mono_left fun x _ hpx => by
            simp only [Bool.and_eq_true] at hpx ⊢
            exact hpx.2) (checkAsset_abs_count ad _ m)
        omega
      · have hzero : ((checkAsset ad (rangesFor ranges ad.asset_id)).1.countP fun f =>
            decide (f.asset_id = a) &&
              (decide (f.metric_name = m) && absType f.threshold_type)) = 0 := by
          rw [List.countP_eq_zero]
          intro f hf hp
          have hfa := checkAsset_asset_id ad _ f hf
          simp only [Bool.and_eq_true, decide_eq_true_eq] at hp
          exact ha (by omega)
        have := ih ranges hnd.2
        omega

/-- C3 counterexample: the claim predicts an `approaching_limit` Finding for
every metric whose in-range current value satisfies `current ≥ max * 0.9 OR
current ≤ min * 1.1`, but a production_output reading of 115 in range
[60, 120] (which satisfies 115 ≥ 108 = 120 * 0.9) yields no Finding at all,
and a power_consumption reading of 105 in range [100, 200] (which satisfies
105 ≤ 110 = 100 * 1.1) also yields no Finding. -/
theorem C3_cex :
    ((60 : ℚ) ≤ 115 ∧ (115 : ℚ) ≤ 120 ∧ (115 : ℚ) ≥ 120 * (9/10) ∧
      (checkProduction 1 "A" (some ⟨115, "u", none⟩) (some ⟨60, 120, "u"⟩)).1 = []) ∧
    ((100 : ℚ) ≤ 105 ∧ (105 : ℚ) ≤ 200 ∧ (105 : ℚ) ≤ 100 * (11/10) ∧
      (checkPower 1 "A" (some ⟨105, "kW", none⟩) (some ⟨100, 200, "kW"⟩)).1 = []) := by
  refine ⟨⟨by norm_num, by norm_num, by norm_num, ?_⟩,
    ⟨by norm_num, by norm_num, by norm_num, ?_⟩⟩
  · norm_num [checkProduction]
  · norm_num [checkPower]

/-- C3 corrected: for temperature and pressure, an in-range current value
with `current ≥ max * 0.9 OR current ≤ min * 1.1` yields an
`approaching_limit` / `medium` Finding; for power_consumption only the high
side `current ≥ max * 0.9` does (an in-range low-side value yields no
Finding); production_output never yields `approaching_limit` (an in-range
`current ≤ min * 1.1` yields `low_production` / `medium` instead). -/
theorem C3_amended (aid : Nat) (an u ru : String) (cur rmin rmax : ℚ) (tv : Option ℚ) :
    (rmin ≤ cur → cur ≤ rmax → (cur ≥ rmax * (9/10) ∨ cur ≤ rmin * (11/10)) →
      ∃ f ∈ (checkTemperature aid an (some ⟨cur, u, tv⟩) (some ⟨rmin, rmax, ru⟩)).1,
        f.threshold_type = ThresholdType.approaching_limit ∧ f.severity = Severity.medium) ∧
    (rmin ≤ cur → cur ≤ rmax → (cur ≥ rmax * (9/10) ∨ cur ≤ rmin * (11/10)) →
      ∃ f ∈ (checkPressure aid an (some ⟨cur, u, tv⟩) (some ⟨rmin, rmax, ru⟩)).1,
        f.threshold_type = ThresholdType.approaching_limit ∧ f.severity = Severity.medium) ∧
    (rmin ≤ cur → cur ≤ rmax → cur ≥ rmax * (9/10) →
      ∃ f ∈ (checkPower aid an (some ⟨cur, u, tv⟩) (some ⟨rmin, rmax, ru⟩)).1,
        f.threshold_type = ThresholdType.approaching_limit ∧ f.severity = Severity.medium) ∧
    (rmin ≤ cur → cur ≤ rmax → cur < rmax * (9/10) → cur ≤ rmin * (11/10) →
      (checkPower aid an (some ⟨cur, u, tv⟩) (some ⟨rmin, rmax, ru⟩)).1 = []) ∧
    (∀ f ∈ (checkProduction aid an (some ⟨cur, u, tv⟩) (some ⟨rmin, rmax, ru⟩)).1,
      f.threshold_type ≠ ThresholdType.approaching_limit) ∧
    (rmin ≤ cur → cur ≤ rmax → cur ≤ rmin * (11/10) →
      ∃ f ∈ (checkProduction aid an (some ⟨cur, u, tv⟩) (some ⟨rmin, rmax, ru⟩)).1,
        f.threshold_type = ThresholdType.low_production ∧ f.severity = Severity.medium) := by
  refine ⟨?_, ?_, ?_, ?_, checkProduction_no_approaching aid an _ _, ?_⟩
  · intro hmin hmax happ
    simp only [checkTemperature]
    rw [if_neg (by push_neg; exact ⟨hmin, hmax⟩), if_pos happ]
    exact ⟨_, List.mem_append_left _ (List.mem_singleton_self _), rfl, rfl⟩
  · intro hmin hmax happ
    simp only [checkPressure]
    rw [if_neg (by push_neg; exact ⟨hmin, hmax⟩), if_pos happ]
    exact ⟨_, List.mem_singleton_self _, rfl, rfl⟩
  · intro hmin hmax happ
    simp only [checkPower]
    rw [if_neg (by push_neg; exact ⟨hmin, hmax⟩), if_pos happ]
    exact ⟨_, List.mem_singleton_self _, rfl, rfl⟩
  · intro hmin hmax hlow _
    simp only [checkPower]
    rw [if_neg (by push_neg; exact ⟨hmin, hmax⟩), if_neg (not_le.mpr hlow)]
  · intro hmin hmax hlow
    simp only [checkProduction]
    rw [if_neg (by push_neg; exact ⟨hmin, hmax⟩), if_pos hlow]
    exact ⟨_, List.mem_append_left _ (List.mem_singleton_self _), rfl, rfl⟩

/-- Witness for the corrected C3 at concrete inputs. -/
theorem C3_wit :
    ∃ f ∈ (checkTemperature 1 "A" (some ⟨115, "C", none⟩) (some ⟨60, 120, "C"⟩)).1,
      f.threshold_type = ThresholdType.approaching_limit ∧ f.severity = Severity.medium :=
  (C3_amended 1 "A" "C" "C" 115 60 120 none).1 (by norm_num) (by norm_num)
    (by norm_num)

/-- C7: per asset metric at most one absolute-bound Finding
(out_of_range / approaching_limit / elevated) is emitted per cycle, while
trend findings are additive: a temperature of 90 with trend 70 in range
[85, 200] yields both `approaching_limit` and `rising_trend`. -/
theorem C7_abs_precedence_trend_additive (assetsData : List AssetData)
    (ranges : List (Nat × List (Metric × MRange)))
    (hnd : (assetsData.map AssetData.asset_id).Nodup) (a : Nat) (m : Metric) :
    ((detectIssues assetsData ranges).countP fun f =>
      decide (f.asset_id = a) &&
        (decide (f.metric_name = m) && absType f.threshold_type)) ≤ 1 ∧
    ((checkTemperature 1 "A" (some ⟨90, "C", some 70⟩) (some ⟨85, 200, "C"⟩)).1.map
        Finding.threshold_type) =
      [ThresholdType.approaching_limit, ThresholdType.rising_trend] :=
  ⟨detectIssues_abs_count a m assetsData ranges hnd, by norm_num [checkTemperature]⟩

/-- Witness for C7 at a concrete input. -/
theorem C7_wit :
    (([⟨1, "A", [(Metric.temperature, ⟨90, "C", some 70⟩)]⟩] :
        List AssetData).map AssetData.asset_id).Nodup ∧
    ((detectIssues [⟨1, "A", [(Metric.temperature, ⟨90, "C", some 70⟩)]⟩]
        [(1, [(Metric.temperature, ⟨85, 200, "C"⟩)])]).countP fun f =>
      decide (f.asset_id = 1) &&
        (decide (f.metric_name = Metric.temperature) && absType f.threshold_type)) ≤ 1 :=
  ⟨by simp, (C7_abs_precedence_trend_additive
      [⟨1, "A", [(Metric.temperature, ⟨90, "C", some 70⟩)]⟩]
      [(1, [(Metric.temperature, ⟨85, 200, "C"⟩)])] (by simp) 1 Metric.temperature).1⟩

/-- C10: a present but zero trend value never fires the trend checks
(`rising_trend` for temperature, `declining_production` for
production_output), no matter how far the current value is from the trend;
Python's truthiness test `if trend_value and …` treats 0 as absent. -/
theorem C10_zero_trend_never_fires (aid : Nat) (an : String) (cur : ℚ) (u : String)
    (rng : Option MRange) :
    (∀ f ∈ (checkTemperature aid an (some ⟨cur, u, some 0⟩) rng).1,
      f.threshold_type ≠ ThresholdType.rising_trend) ∧
    (∀ f ∈ (checkProduction aid an (some ⟨cur, u, some 0⟩) rng).1,
      f.threshold_type ≠ ThresholdType.declining_production) :=
  ⟨checkTemperature_trend_zero aid an cur u rng,
   checkProduction_trend_zero aid an cur u rng⟩

/-- Witness for C10: at current 200 with zero trend in range [60, 120] the
temperature block emits exactly one finding and it is not `rising_trend`
(although 200 exceeds the trend by far more than 10). -/
theorem C10_wit :
    (checkTemperature 1 "A" (some ⟨200, "C", some 0⟩) (some ⟨60, 120, "C"⟩)).1.length = 1 ∧
    ∀ f ∈ (checkTemperature 1 "A" (some ⟨200, "C", some 0⟩) (some ⟨60, 120, "C"⟩)).1,
      f.threshold_type ≠ ThresholdType.rising_trend :=
  ⟨by norm_num [checkTemperature], fun f hf =>
    (C10_zero_trend_never_fires 1 "A" 200 "C" (some ⟨60, 120, "C"⟩)).1 f hf⟩

theorem checkTemperature_none (aid : Nat) (an : String) (rg : Option MRange) :
    (checkTemperature aid an none rg).1 = [] := by
  cases rg <;> rfl

theorem checkPressure_none (aid : Nat) (an : String) (rg : Option MRange) :
    (checkPressure aid an none rg).1 = [] := by
  cases rg <;> rfl

theorem checkPower_none (aid : Nat) (an : String) (rg : Option MRange) :
    (checkPower aid an none rg).1 = [] := by
  cases rg <;> rfl

theorem checkProduction_none (aid : Nat) (an : String) (rg : Option MRange) :
    (checkProduction aid an none rg).1 = [] := by
  cases rg <;> rfl

/-- C9 counterexample: an unexpected exception while building the snapshot
yields the error event, but the generator loop continues — a following
timed-out iteration still emits a keep-alive ping after the error event, so
the stream did not terminate with the error event as claimed. -/
theorem C9_cex :
    streamRun [⟨false, true, FetchOutcome.raised "boom"⟩,
        ⟨false, false, FetchOutcome.built "s"⟩] =
      [SSEEvent.errorEvent "boom", SSEEvent.ping] ∧
    streamRun [⟨false, true, FetchOutcome.raised "boom"⟩,
        ⟨false, false, FetchOutcome.built "s"⟩] ≠
      [SSEEvent.errorEvent "boom"] := by
  refine ⟨rfl, ?_⟩
  intro h
  have h2 : ([SSEEvent.errorEvent "boom", SSEEvent.ping] : List SSEEvent) =
      [SSEEvent.errorEvent "boom"] :=
    (rfl : streamRun [⟨false, true, FetchOutcome.raised "boom"⟩,
      ⟨false, false, FetchOutcome.built "s"⟩] =
        [SSEEvent.errorEvent "boom", SSEEvent.ping]).symm.trans h
  simp at h2

/-- C9 corrected: an unexpected exception while building or serializing the
snapshot emits exactly one error event to that consumer, but the stream does
not terminate: the loop resumes and may emit further summary or keep-alive
events; only the facility-not-found error event is terminal. -/
theorem C9_amended (msg : String) (it : IterInput) (rest : List IterInput)
    (hd : it.disconnected = false) (hu : it.update_received = true)
    (ho : it.outcome = FetchOutcome.raised msg) :
    streamIteration it = ([SSEEvent.errorEvent msg], true) ∧
    streamRun (it :: rest) = SSEEvent.errorEvent msg :: streamRun rest ∧
    (∀ fit : IterInput, fit.disconnected = false → fit.update_received = true →
      fit.outcome = FetchOutcome.notFound →
      streamRun (fit :: rest) = [SSEEvent.errorEvent "Facility not found"]) := by
  obtain ⟨d, u, o⟩ := it
  simp only at hd hu ho
  subst hd; subst hu; subst ho
  refine ⟨rfl, rfl, ?_⟩
  intro fit h1 h2 h3
  obtain ⟨d', u', o'⟩ := fit
  simp only at h1 h2 h3
  subst h1; subst h2; subst h3
  rfl

/-- Witness for the corrected C9 at a concrete schedule. -/
theorem C9_wit :
    (⟨false, true, FetchOutcome.raised "e"⟩ : IterInput).disconnected = false ∧
    streamRun [⟨false, true, FetchOutcome.raised "e"⟩,
        ⟨false, false, FetchOutcome.built "x"⟩] =
      SSEEvent.errorEvent "e" ::
        streamRun [(⟨false, false, FetchOutcome.built "x"⟩ : IterInput)] :=
  ⟨rfl, (C9_amended "e" ⟨false, true, FetchOutcome.raised "e"⟩
    [⟨false, false, FetchOutcome.built "x"⟩] rfl rfl rfl).2.1⟩

/-- C5 counterexample: in the traced analysis cycle the asset-status
projection step comes before the insight upsert and resolve steps — the
step list is [evaluate, projectStatus, upsertInsights, resolveInsights,
signal] — so insight reconciliation does not happen before status
projection as the claim states. -/
theorem C5_cex :
    ((runOnceTraced 1 0 [] [] ⟨[], []⟩).map Prod.fst =
      [CycleStep.evaluate, CycleStep.projectStatus, CycleStep.upsertInsights,
       CycleStep.resolveInsights, CycleStep.signal]) ∧
    ¬ (([CycleStep.evaluate, CycleStep.projectStatus, CycleStep.upsertInsights,
        CycleStep.resolveInsights, CycleStep.signal].indexOf CycleStep.upsertInsights <
       [CycleStep.evaluate, CycleStep.projectStatus, CycleStep.upsertInsights,
        CycleStep.resolveInsights, CycleStep.signal].indexOf CycleStep.projectStatus)) := by
  exact ⟨rfl, by decide⟩

/-- C5 corrected: within one cycle the steps run in the fixed order
evaluate, project status, upsert insights, resolve insights, and the
(spec-modelled) broadcaster signal comes last; the stored state paired with
the signal step is exactly the final state of `manage_insights`, so a
consumer woken by the signal that re-reads observes post-reconciliation,
post-projection state. -/
theorem C5_amended (fid now : Nat) (assetsData : List AssetData)
    (ranges : List (Nat × List (Metric × MRange))) (db : DB) :
    (runOnceTraced fid now assetsData ranges db).map Prod.fst =
      [CycleStep.evaluate, CycleStep.projectStatus, CycleStep.upsertInsights,
       CycleStep.resolveInsights, CycleStep.signal] ∧
    (runOnceTraced fid now assetsData ranges db).getLast? =
      some (CycleStep.signal, manage_insights fid now assetsData ranges db) :=
  ⟨rfl, rfl⟩

/-- C4 counterexample: the upsert UPDATE branch leaves the conflicting
active row's severity unchanged (still `low` although the new finding
carries `high`), while it does rewrite the description — contradicting the
claim that severity is updated in place. -/
theorem C4_cex :
    ((upsertOne 1 9
        ⟨1, Metric.pressure, ThresholdType.out_of_range, Severity.high, "T", "newdesc"⟩
        [⟨1, some 1, Metric.pressure, ThresholdType.out_of_range, Severity.low, "T",
          "olddesc", true, 5, 5, none⟩]).map InsightRow.severity = [Severity.low]) ∧
    ((upsertOne 1 9
        ⟨1, Metric.pressure, ThresholdType.out_of_range, Severity.high, "T", "newdesc"⟩
        [⟨1, some 1, Metric.pressure, ThresholdType.out_of_range, Severity.low, "T",
          "olddesc", true, 5, 5, none⟩]).map InsightRow.description = ["newdesc"]) :=
  ⟨rfl, rfl⟩

/-- C4 corrected: when an active row exists for the Finding's identity key,
the upsert updates that row's description (and updated_at) in place, leaving
severity, detected_at, is_active, title and resolved_at unchanged, and
inserts nothing; a new active row (with the Finding's severity and
detected_at = now) is inserted only when no active row matches the key. -/
theorem C4_amended (fid now : Nat) (f : Finding) (ins : List InsightRow) :
    ((ins.any fun r => decide (keyMatches fid f r)) = true →
      (upsertOne fid now f ins).length = ins.length ∧
      ∀ r ∈ ins, keyMatches fid f r →
        ∃ r' ∈ upsertOne fid now f ins,
          r'.description = f.description ∧ r'.updated_at = now ∧
          r'.severity = r.severity ∧ r'.detected_at = r.detected_at ∧
          r'.is_active = r.is_active ∧ r'.title = r.title ∧
          r'.resolved_at = r.resolved_at) ∧
    ((ins.any fun r => decide (keyMatches fid f r)) = false →
      (upsertOne fid now f ins).length = ins.length + 1 ∧
      (∀ r ∈ ins, r ∈ upsertOne fid now f ins) ∧
      ∃ r' ∈ upsertOne fid now f ins, r'.facility_id = fid ∧
        r'.asset_id = some f.asset_id ∧ r'.metric_name = f.metric_name ∧
        r'.threshold_type = f.threshold_type ∧ r'.severity = f.severity ∧
        r'.description = f.description ∧ r'.is_active = true ∧
        r'.detected_at = now ∧ r'.resolved_at = none) := by
  constructor
  · intro h
    have hup : upsertOne fid now f ins = ins.map fun r =>
        if keyMatches fid f r then
          { r with description := f.description, updated_at := now } else r := by
      unfold upsertOne
      rw [if_pos h]
    constructor
    · rw [hup, List.length_map]
    · intro r hr hk
      refine ⟨{ r with description := f.description, updated_at := now }, ?_,
        rfl, rfl, rfl, rfl, rfl, rfl, rfl⟩
      rw [hup]
      exact List.mem_map.mpr ⟨r, hr, if_pos hk⟩
  · intro h
    have hup : upsertOne fid now f ins = ins ++
        [{ facility_id := fid, asset_id := some f.asset_id, metric_name := f.metric_name,
           threshold_type := f.threshold_type, severity := f.severity, title := f.title,
           description := f.description, is_active := true, detected_at := now,
           updated_at := now, resolved_at := none }] := by
      unfold upsertOne
      rw [if_neg (by rw [h]; simp)]
    refine ⟨by rw [hup, List.length_append]; rfl,
      fun r hr => by rw [hup]; exact List.mem_append_left _ hr, ?_⟩
    refine ⟨_, by rw [hup]; exact List.mem_append_right _ (List.mem_singleton_self _),
      rfl, rfl, rfl, rfl, rfl, rfl, rfl, rfl, rfl⟩

/-- Witness for the corrected C4: the concrete update case. -/
theorem C4_wit :
    (([⟨1, some 1, Metric.pressure, ThresholdType.out_of_range, Severity.low, "T",
        "olddesc", true, 5, 5, none⟩] : List InsightRow).any fun r =>
      decide (keyMatches 1
        ⟨1, Metric.pressure, ThresholdType.out_of_range, Severity.high, "T", "newdesc"⟩ r)) =
      true ∧
    (upsertOne 1 9
        ⟨1, Metric.pressure, ThresholdType.out_of_range, Severity.high, "T", "newdesc"⟩
        [⟨1, some 1, Metric.pressure, ThresholdType.out_of_range, Severity.low, "T",
          "olddesc", true, 5, 5, none⟩]).length =
      ([⟨1, some 1, Metric.pressure, ThresholdType.out_of_range, Severity.low, "T",
        "olddesc", true, 5, 5, none⟩] : List InsightRow).length :=
  ⟨rfl, ((C4_amended 1 9
    ⟨1, Metric.pressure, ThresholdType.out_of_range, Severity.high, "T", "newdesc"⟩
    [⟨1, some 1, Metric.pressure, ThresholdType.out_of_range, Severity.low, "T",
      "olddesc", true, 5, 5, none⟩]).1 rfl).1⟩

/-- C1 counterexample: facility 1 holds an active out_of_range temperature
insight for asset 1; in a cycle where that metric has no current reading
(here: no readings at all) the claim says the key is left untouched, but the
resolution step resolves the insight: is_active becomes false and
resolved_at is set to the cycle time. -/
theorem C1_cex :
    ((manage_insights 1 7 [] []
        ⟨[], [⟨1, some 1, Metric.temperature, ThresholdType.out_of_range, Severity.high,
          "T", "d", true, 5, 5, none⟩]⟩).insights.map fun r => (r.is_active, r.resolved_at)) =
      [(false, some 7)] := rfl

/-- C1 corrected: a metric with no current reading in the window yields no
Finding for that metric (so no new active insight is created for its key),
but an existing active insight for that key is transitioned to resolved by
the resolution step, because the key is absent from the detected set. -/
theorem C1_amended (fid now : Nat) (assetsData : List AssetData)
    (ranges : List (Nat × List (Metric × MRange))) (db : DB) (a : Nat) (m : Metric)
    (hmiss : ∀ ad ∈ assetsData, ad.asset_id = a → lookupIn m ad.metrics = none) :
    (∀ f ∈ detectIssues assetsData ranges, ¬(f.asset_id = a ∧ f.metric_name = m)) ∧
    (∀ r ∈ (manage_insights fid now assetsData ranges db).insights,
      r.facility_id = fid → r.asset_id = some a → r.metric_name = m →
      r.is_active = false) := by
  have hnof : ∀ f ∈ detectIssues assetsData ranges, ¬(f.asset_id = a ∧ f.metric_name = m) := by
    rintro f hf ⟨hfa, hfm⟩
    obtain ⟨ad, had, hf'⟩ := mem_detectIssues.mp hf
    have hada : ad.asset_id = a := by rw [← checkAsset_asset_id ad _ f hf', hfa]
    have hnone := hmiss ad had hada
    have hblock := checkAsset_metric_block ad (rangesFor ranges ad.asset_id) f hf'
    cases m with
    | temperature =>
        have := hblock.1 hfm
        rw [hnone, checkTemperature_none] at this
        cases this
    | pressure =>
        have := hblock.2.1 hfm
        rw [hnone, checkPressure_none] at this
        cases this
    | power_consumption =>
        have := hblock.2.2.1 hfm
        rw [hnone, checkPower_none] at this
        cases this
    | production_output =>
        have := hblock.2.2.2 hfm
        rw [hnone, checkProduction_none] at this
        cases this
  refine ⟨hnof, ?_⟩
  intro r hr hfac hra hrm
  by_contra hne
  have hact : r.is_active = true := by
    revert hne
    cases r.is_active <;> simp
  have hkey := resolveStep_active_detected fid now (detectIssues assetsData ranges)
    (upsertAll fid now (detectIssues assetsData ranges) db.insights) r hr hact hfac
  unfold detectedTypes at hkey
  obtain ⟨f, hf, hfk⟩ := List.mem_map.mp hkey
  unfold keyOf at hfk
  rw [hra, hrm] at hfk
  have hfa : f.asset_id = a := by
    have := congrArg Prod.fst hfk
    simpa using this
  have hfm : f.metric_name = m := by
    have := congrArg (fun p => p.2.1) hfk
    simpa using this
  exact hnof f hf ⟨hfa, hfm⟩

/-- Witness for the corrected C1 at the concrete state of the
counterexample input. -/
theorem C1_wit :
    (∀ ad ∈ ([] : List AssetData), ad.asset_id = 1 →
      lookupIn Metric.temperature ad.metrics = none) ∧
    (∀ r ∈ (manage_insights 1 7 [] []
        ⟨[], [⟨1, some 1, Metric.temperature, ThresholdType.out_of_range, Severity.high,
          "T", "d", true, 5, 5, none⟩]⟩).insights,
      r.facility_id = 1 → r.asset_id = some 1 → r.metric_name = Metric.temperature →
      r.is_active = false) :=
  ⟨by simp, (C1_amended 1 7 [] []
    ⟨[], [⟨1, some 1, Metric.temperature, ThresholdType.out_of_range, Severity.high,
      "T", "d", true, 5, 5, none⟩]⟩ 1 Metric.temperature (by simp)).2⟩

theorem manage_insights_assets (fid now : Nat) (assetsData : List AssetData)
    (ranges : List (Nat × List (Metric × MRange))) (db : DB) :
    (manage_insights fid now assetsData ranges db).assets =
      applyStatusUpdates now (statusTargets assetsData ranges) db.assets := rfl

theorem manage_insights_insights (fid now : Nat) (assetsData : List AssetData)
    (ranges : List (Nat × List (Metric × MRange))) (db : DB) :
    (manage_insights fid now assetsData ranges db).insights =
      resolveStep fid now (detectIssues assetsData ranges)
        (upsertAll fid now (detectIssues assetsData ranges) db.insights) := rfl

theorem coalesce_some (a : Nat) : coalesce (some a) = a := rfl

/-- C2: after one analysis cycle, for every evaluated asset the stored
status is `maintenance` iff the cycle left at least one active out_of_range
insight for that asset (for any metric); the status is always one of
`maintenance` / `operational`, so an asset whose only active insight is
`approaching_limit` is `operational`. -/
theorem C2_status_iff_out_of_range (fid now : Nat) (assetsData : List AssetData)
    (ranges : List (Nat × List (Metric × MRange))) (db : DB)
    (hnd : (assetsData.map AssetData.asset_id).Nodup)
    (hnz : ∀ ad ∈ assetsData, ad.asset_id ≠ 0)
    (ad : AssetData) (had : ad ∈ assetsData) (row : AssetRow)
    (hrow : row ∈ (manage_insights fid now assetsData ranges db).assets)
    (hid : row.id = ad.asset_id) :
    (row.status = "maintenance" ∨ row.status = "operational") ∧
    (row.status = "maintenance" ↔
      ∃ r ∈ (manage_insights fid now assetsData ranges db).insights,
        r.facility_id = fid ∧ r.asset_id = some ad.asset_id ∧
        r.threshold_type = ThresholdType.out_of_range ∧ r.is_active = true) := by
  have hnd' : ((statusTargets assetsData ranges).map Prod.fst).Nodup := by
    rw [statusTargets_fst]; exact hnd
  have htarget : (ad.asset_id,
      if (checkAsset ad (rangesFor ranges ad.asset_id)).2 then "maintenance"
      else "operational") ∈ statusTargets assetsData ranges :=
    List.mem_map_of_mem _ had
  rw [manage_insights_assets] at hrow
  have hstatus : row.status =
      (if (checkAsset ad (rangesFor ranges ad.asset_id)).2 then "maintenance"
       else "operational") :=
    applyStatusUpdates_status now (statusTargets assetsData ranges) db.assets
      ad.asset_id _ hnd' htarget row hrow hid
  constructor
  · rw [hstatus]
    by_cases hflag : (checkAsset ad (rangesFor ranges ad.asset_id)).2
    · left; rw [if_pos hflag]
    · right; rw [if_neg hflag]
  constructor
  · intro hm
    have hflag : (checkAsset ad (rangesFor ranges ad.asset_id)).2 = true := by
      by_contra hf
      rw [hstatus, if_neg hf] at hm
      simp at hm
    obtain ⟨f, hf', hft⟩ := (checkAsset_oor_iff ad _).mp hflag
    have hf : f ∈ detectIssues assetsData ranges := mem_detectIssues.mpr ⟨ad, had, hf'⟩
    have hfa : f.asset_id = ad.asset_id := checkAsset_asset_id ad _ f hf'
    obtain ⟨r0, hr0, hk⟩ := upsertAll_hasMatch fid now (detectIssues assetsData ranges)
      db.insights f hf
    unfold keyMatches at hk
    have hanz : ad.asset_id ≠ 0 := hnz ad had
    have hsome : r0.asset_id = some ad.asset_id :=
      coalesce_eq_nonzero (by rw [hk.2.2.2.2, hfa]) hanz
    have hdts : (some ad.asset_id, f.metric_name, ThresholdType.out_of_range) ∈
        detectedTypes (detectIssues assetsData ranges) := by
      unfold detectedTypes
      refine List.mem_map.mpr ⟨f, hf, ?_⟩
      rw [hfa, hft]
    have hpre := resolveFold_preserves_key fid now
      (detectedTypes (detectIssues assetsData ranges)) ad.asset_id f.metric_name
      ThresholdType.out_of_range hanz hdts
      ((upsertAll fid now (detectIssues assetsData ranges) db.insights).filter
        fun r => decide (r.facility_id = fid) && r.is_active)
      (upsertAll fid now (detectIssues assetsData ranges) db.insights)
      ⟨r0, hr0, hk.1, hk.2.1, hsome, hk.2.2.1, hk.2.2.2.1.trans hft⟩
    obtain ⟨r1, hr1, hp1⟩ := hpre
    refine ⟨r1, ?_, hp1.2.1, hp1.2.2.1, hp1.2.2.2.2, hp1.1⟩
    rw [manage_insights_insights, resolveStep_eq]
    exact hr1
  · rintro ⟨r, hr, hrfac, hra, hrt, hract⟩
    rw [manage_insights_insights] at hr
    have hkey := resolveStep_active_detected fid now (detectIssues assetsData ranges)
      (upsertAll fid now (detectIssues assetsData ranges) db.insights) r hr hract hrfac
    unfold detectedTypes at hkey
    obtain ⟨f, hf, hfk⟩ := List.mem_map.mp hkey
    unfold keyOf at hfk
    rw [hra, hrt] at hfk
    have hfa : f.asset_id = ad.asset_id := by
      have := congrArg Prod.fst hfk
      simpa using this
    have hft : f.threshold_type = ThresholdType.out_of_range := by
      have := congrArg (fun p => p.2.2) hfk
      simpa using this
    obtain ⟨ad', had', hf'⟩ := mem_detectIssues.mp hf
    have hfa' : f.asset_id = ad'.asset_id := checkAsset_asset_id ad' _ f hf'
    have : ad' = ad := List.inj_on_of_nodup_map hnd had' had (by omega)
    subst this
    have hflag : (checkAsset ad' (rangesFor ranges ad'.asset_id)).2 = true :=
      (checkAsset_oor_iff ad' _).mpr ⟨f, hf', hft⟩
    rw [hstatus, if_pos hflag]

/-- Witness for C2 at a concrete single-asset state with no configured
metrics: the asset stays operational and no out_of_range insight exists. -/
theorem C2_wit :
    (([⟨1, "A", []⟩] : List AssetData).map AssetData.asset_id).Nodup ∧
    ((⟨1, "operational", 0⟩ : AssetRow).status = "maintenance" ∨
      (⟨1, "operational", 0⟩ : AssetRow).status = "operational") ∧
    ((⟨1, "operational", 0⟩ : AssetRow).status = "maintenance" ↔
      ∃ r ∈ (manage_insights 1 3 [⟨1, "A", []⟩] [] ⟨[⟨1, "operational", 0⟩], []⟩).insights,
        r.facility_id = 1 ∧ r.asset_id = some 1 ∧
        r.threshold_type = ThresholdType.out_of_range ∧ r.is_active = true) :=
  ⟨by simp,
   C2_status_iff_out_of_range 1 3 [⟨1, "A", []⟩] [] ⟨[⟨1, "operational", 0⟩], []⟩
    (by simp) (by simp) ⟨1, "A", []⟩ (List.mem_singleton_self _) ⟨1, "operational", 0⟩
    (List.mem_singleton_self _) rfl⟩

theorem resolveStep_length (fid now : Nat) (issues : List Finding)
    (ins : List InsightRow) :
    (resolveStep fid now issues ins).length = ins.length := by
  rw [resolveStep_eq]
  exact resolveFold_length fid now _ _ ins

theorem resolveStep_inactive_mem (fid now : Nat) (issues : List Finding)
    (ins : List InsightRow) :
    ∀ r ∈ ins, r.is_active = false → r ∈ resolveStep fid now issues ins := by
  rw [resolveStep_eq]
  exact resolveFold_inactive_mem fid now _ _ ins

/-- C6: an active insight of the facility whose identity key is not among
the keys implied by the cycle's findings is transitioned to resolved
(is_active false, resolved_at = now) with its identity columns and
detected_at preserved; rows are never deleted (the insight table only
grows), and a resolved row never becomes active again (even a new Finding
for the key inserts a fresh row instead of reactivating it). -/
theorem C6_resolution (fid now : Nat) (assetsData : List AssetData)
    (ranges : List (Nat × List (Metric × MRange))) (db : DB) :
    (db.insights.length ≤ (manage_insights fid now assetsData ranges db).insights.length) ∧
    (∀ r ∈ db.insights, r.facility_id = fid → r.is_active = true →
      keyOf r ∉ detectedTypes (detectIssues assetsData ranges) →
      ∃ r' ∈ (manage_insights fid now assetsData ranges db).insights,
        r'.facility_id = r.facility_id ∧ r'.asset_id = r.asset_id ∧
        r'.metric_name = r.metric_name ∧ r'.threshold_type = r.threshold_type ∧
        r'.severity = r.severity ∧ r'.title = r.title ∧
        r'.detected_at = r.detected_at ∧ r'.is_active = false ∧
        r'.resolved_at = some now) ∧
    (∀ r ∈ db.insights, r.is_active = false →
      r ∈ (manage_insights fid now assetsData ranges db).insights) := by
  refine ⟨?_, ?_, ?_⟩
  · rw [manage_insights_insights, resolveStep_length]
    exact upsertAll_length_le fid now (detectIssues assetsData ranges) db.insights
  · intro r hr hfac hact hkey
    obtain ⟨r1, hr1, hcore⟩ := upsertAll_core fid now (detectIssues assetsData ranges)
      db.insights r hr
    unfold coreEq at hcore
    have hkey1 : keyOf r1 ∉ detectedTypes (detectIssues assetsData ranges) := by
      unfold keyOf
      rw [hcore.2.1, hcore.2.2.1, hcore.2.2.2.1]
      exact hkey
    have hres := resolveStep_resolves fid now (detectIssues assetsData ranges)
      (upsertAll fid now (detectIssues assetsData ranges) db.insights) r1 hr1
      (by rw [hcore.2.2.2.2.2.2.1]; exact hact) (by rw [hcore.1]; exact hfac) hkey1
    refine ⟨{ r1 with is_active := false, resolved_at := some now }, ?_,
      hcore.1, hcore.2.1, hcore.2.2.1, hcore.2.2.2.1, hcore.2.2.2.2.1,
      hcore.2.2.2.2.2.1, hcore.2.2.2.2.2.2.2.1, rfl, rfl⟩
    rw [manage_insights_insights]
    exact hres
  · intro r hr hact
    rw [manage_insights_insights]
    exact resolveStep_inactive_mem fid now _ _ r
      (upsertAll_inactive_mem fid now _ db.insights r hr hact) hact

/-- Witness for C6 at a concrete state: an active insight of facility 1
with no finding reported in the cycle gets resolved with its detected_at
preserved. -/
theorem C6_wit :
    (keyOf ⟨1, some 1, Metric.temperature, ThresholdType.out_of_range, Severity.high,
        "T", "d", true, 5, 5, none⟩ ∉ detectedTypes (detectIssues [] [])) ∧
    ∃ r' ∈ (manage_insights 1 7 [] []
        ⟨[], [⟨1, some 1, Metric.temperature, ThresholdType.out_of_range, Severity.high,
          "T", "d", true, 5, 5, none⟩]⟩).insights,
      r'.facility_id = 1 ∧ r'.asset_id = some 1 ∧
      r'.metric_name = Metric.temperature ∧
      r'.threshold_type = ThresholdType.out_of_range ∧
      r'.severity = Severity.high ∧ r'.title = "T" ∧ r'.detected_at = 5 ∧
      r'.is_active = false ∧ r'.resolved_at = some 7 := by
  refine ⟨by simp [detectIssues, detectedTypes], ?_⟩
  have h := (C6_resolution 1 7 [] []
    ⟨[], [⟨1, some 1, Metric.temperature, ThresholdType.out_of_range, Severity.high,
      "T", "d", true, 5, 5, none⟩]⟩).2.1
    ⟨1, some 1, Metric.temperature, ThresholdType.out_of_range, Severity.high,
      "T", "d", true, 5, 5, none⟩ (List.mem_singleton_self _) rfl rfl
    (by simp [detectIssues, detectedTypes])
  exact h

/-- C8: running the analysis cycle twice with unchanged samples is a fixed
point: the second run changes no asset row (no status flips, no touched
updated_at), creates no insight row, resolves none, and rewrites every
description with its identical value — the stored insights are unchanged up
to the freely-refreshed updated_at column. -/
theorem C8_second_run_fixed_point (fid now1 now2 : Nat) (assetsData : List AssetData)
    (ranges : List (Nat × List (Metric × MRange))) (db : DB)
    (hnd : (assetsData.map AssetData.asset_id).Nodup)
    (hnz : ∀ ad ∈ assetsData, ad.asset_id ≠ 0) :
    ((manage_insights fid now2 assetsData ranges
        (manage_insights fid now1 assetsData ranges db)).assets =
      (manage_insights fid now1 assetsData ranges db).assets) ∧
    ((manage_insights fid now2 assetsData ranges
        (manage_insights fid now1 assetsData ranges db)).insights.map strip =
      (manage_insights fid now1 assetsData ranges db).insights.map strip) := by
  have hnd' : ((statusTargets assetsData ranges).map Prod.fst).Nodup := by
    rw [statusTargets_fst]; exact hnd
  have hnzf : ∀ f ∈ detectIssues assetsData ranges, f.asset_id ≠ 0 := by
    intro f hf
    obtain ⟨ad, had, hf'⟩ := mem_detectIssues.mp hf
    rw [checkAsset_asset_id ad _ f hf']
    exact hnz ad had
  have hkeys : ∀ f ∈ detectIssues assetsData ranges,
      (some f.asset_id, f.metric_name, f.threshold_type) ∈
        detectedTypes (detectIssues assetsData ranges) := by
    intro f hf
    unfold detectedTypes
    exact List.mem_map_of_mem _ hf
  constructor
  · rw [manage_insights_assets fid now2]
    refine applyStatusUpdates_fixed now2 _ _ ?_
    intro row hrow p hp hid
    rw [manage_insights_assets] at hrow
    exact applyStatusUpdates_status now1 (statusTargets assetsData ranges) db.assets
      p.1 p.2 hnd' hp row hrow hid
  · have hAct : ∀ r ∈ (manage_insights fid now1 assetsData ranges db).insights,
        r.is_active = true → r.facility_id = fid →
        keyOf r ∈ detectedTypes (detectIssues assetsData ranges) := by
      intro r hr
      rw [manage_insights_insights] at hr
      exact resolveStep_active_detected fid now1 _ _ r hr
    have hMatch : ∀ f ∈ detectIssues assetsData ranges,
        hasMatch fid f (manage_insights fid now1 assetsData ranges db).insights := by
      intro f hf
      obtain ⟨r0, hr0, hk⟩ := upsertAll_hasMatch fid now1 (detectIssues assetsData ranges)
        db.insights f hf
      unfold keyMatches at hk
      have hsome : r0.asset_id = some f.asset_id :=
        coalesce_eq_nonzero hk.2.2.2.2 (hnzf f hf)
      have hpre := resolveFold_preserves_key fid now1
        (detectedTypes (detectIssues assetsData ranges)) f.asset_id f.metric_name
        f.threshold_type (hnzf f hf) (hkeys f hf)
        ((upsertAll fid now1 (detectIssues assetsData ranges) db.insights).filter
          fun r => decide (r.facility_id = fid) && r.is_active)
        (upsertAll fid now1 (detectIssues assetsData ranges) db.insights)
        ⟨r0, hr0, hk.1, hk.2.1, hsome, hk.2.2.1, hk.2.2.2.1⟩
      obtain ⟨r1, hr1, hp1⟩ := hpre
      refine ⟨r1, ?_, ?_⟩
      · rw [manage_insights_insights, resolveStep_eq]
        exact hr1
      · unfold keyMatches
        rw [hp1.2.2.1]
        exact ⟨hp1.1, hp1.2.1, hp1.2.2.2.1, hp1.2.2.2.2, coalesce_some f.asset_id⟩
    have hdesc : ∀ f ∈ detectIssues assetsData ranges,
        ∀ r ∈ (manage_insights fid now1 assetsData ranges db).insights,
        keyMatches fid f r → r.description = f.description := by
      intro f hf r hr hk
      rw [manage_insights_insights, resolveStep_eq] at hr
      obtain ⟨r0, hr0, hform⟩ := resolveFold_from fid now1 _ _ _ r hr
      have hract : r.is_active = true := hk.1
      have hr0eq : r = r0 := by
        rcases hform with h | h
        · exact h
        · exfalso
          rw [h] at hract
          simp at hract
      subst hr0eq
      exact upsertAll_matching_desc fid now1 (detectIssues assetsData ranges) db.insights
        f hf (fun g hg ha hm ht => detectIssues_key_inj hnd g hg f hf ha hm ht) r hr0 hk
    have hF2 : List.Forall₂ (fun x y => strip x = strip y)
        (upsertAll fid now2 (detectIssues assetsData ranges)
          (manage_insights fid now1 assetsData ranges db).insights)
        (manage_insights fid now1 assetsData ranges db).insights :=
      upsertAll_strip fid now2 (detectIssues assetsData ranges)
        (manage_insights fid now1 assetsData ranges db).insights
        (manage_insights fid now1 assetsData ranges db).insights hMatch hdesc
        (List.forall₂_same.mpr fun x _ => rfl)
    have hnoop : resolveStep fid now2 (detectIssues assetsData ranges)
        (upsertAll fid now2 (detectIssues assetsData ranges)
          (manage_insights fid now1 assetsData ranges db).insights) =
        upsertAll fid now2 (detectIssues assetsData ranges)
          (manage_insights fid now1 assetsData ranges db).insights := by
      rw [resolveStep_eq]
      refine resolveFold_noop fid now2 _ _ _ ?_
      intro r hr
      obtain ⟨hmem, hcond⟩ := List.mem_filter.mp hr
      simp only [Bool.and_eq_true, decide_eq_true_eq] at hcond
      exact upsertAll_active_detected fid now2
        (detectedTypes (detectIssues assetsData ranges)) (detectIssues assetsData ranges)
        (manage_insights fid now1 assetsData ranges db).insights hkeys
        (fun r' hr' hact hfac => hAct r' hr' hact hfac) r hmem hcond.2 hcond.1
    rw [manage_insights_insights fid now2, hnoop]
    exact forall2_strip_map hF2

/-- Witness for C8 at a concrete single-asset state. -/
theorem C8_wit :
    (([⟨1, "A", []⟩] : List AssetData).map AssetData.asset_id).Nodup ∧
    ((manage_insights 1 9 [⟨1, "A", []⟩] []
        (manage_insights 1 3 [⟨1, "A", []⟩] [] ⟨[⟨1, "x", 0⟩], []⟩)).assets =
      (manage_insights 1 3 [⟨1, "A", []⟩] [] ⟨[⟨1, "x", 0⟩], []⟩).assets) :=
  ⟨by simp,
   (C8_second_run_fixed_point 1 3 9 [⟨1, "A", []⟩] [] ⟨[⟨1, "x", 0⟩], []⟩
     (by simp) (by simp)).1⟩

end PlantMonitor
